import Mathlib

/-!
The client of yop-go-sdk: request building, context assembly, analyzer chain.

A shallow embedding of `yop/client/yop_client.go`.

* Go strings are sequences of bytes (`GoString`).
* Go maps are association lists; the order of the list is the order in which a
  `range` loop visits the entries, which Go leaves unspecified, so a statement
  quantified over all lists covers every iteration order.  A well-formed map
  has pairwise distinct keys.
* Library functions the client calls (`net/url`, `strings`, `path/filepath`,
  `net/textproto`, `net/http`) are transcribed from the Go standard library
  for the Unix build.
* Code of the SDK that lives in other packages (`constants`, `request`,
  `response`, `auth`, `utils`) and the network are collected in `Env`.
* `log.Fatal` (logrus) writes the entry and then calls `os.Exit(1)`; a
  function that reaches it does not return, which `Outcome.fatal` records.
* `Request` and `MultiPartUploadFileByBytes` run in one goroutine and are
  functions.  `MultiPartUploadFileByUrl` runs two goroutines that share the
  variable `err`; it is a step function under a schedule.
-/

namespace Yop

/-! ## Go strings -/

/-- A Go `byte`. -/
abbrev Byte := Fin 256

/-- A Go `string`: an immutable sequence of bytes. -/
abbrev GoString := List Byte

/-- The bytes (UTF-8) of a string literal. -/
def str (s : String) : GoString :=
  (s.toList.flatMap String.utf8EncodeChar).map (fun b => Fin.ofNat b.toNat)

/-- A Go `error` value, identified with its message. -/
abbrev Error := GoString

/-! ## package strings -/

namespace strings

/-- The test `strings.HasPrefix(s, p)`. -/
def startsWith : GoString → GoString → Bool
  | _, [] => true
  | [], _ :: _ => false
  | c :: s, d :: p => decide (c = d) && startsWith s p

/-- The function `strings.Index`: the index of the first instance of `substr`
in `s`, or `-1` when there is none. -/
def Index : GoString → GoString → Int
  | [], substr => if startsWith [] substr then 0 else -1
  | c :: t, substr =>
    if startsWith (c :: t) substr then 0
    else
      let i := Index t substr
      if i < 0 then -1 else i + 1

/-- The function `strings.Contains`. -/
def Contains (s substr : GoString) : Bool :=
  decide (0 ≤ Index s substr)

/-- The function `strings.Trim` for a cutset of ASCII bytes: all leading and
trailing bytes contained in the cutset are removed (right end first). -/
def Trim (s cutset : GoString) : GoString :=
  (s.rdropWhile (fun c => decide (c ∈ cutset))).dropWhile (fun c => decide (c ∈ cutset))

end strings

/-! ## package path/filepath (Unix) -/

namespace filepath

/-- The function `filepath.Base`: the last element of the path, after removing
trailing slashes; `"."` for the empty path, `"/"` for a path of slashes only. -/
def Base (path : GoString) : GoString :=
  if path = [] then str "."
  else
    let stripped := path.rdropWhile (fun c => decide (c = 47))
    let last := stripped.rtakeWhile (fun c => !decide (c = 47))
    if last = [] then [47] else last

end filepath

/-! ## package net/url -/

namespace url

/-- Bytes that `shouldEscape` leaves alone in every mode: letters, digits and
`-`, `_`, `.`, `~`. -/
def unreserved (c : Byte) : Bool :=
  (97 ≤ c.val && c.val ≤ 122) || (65 ≤ c.val && c.val ≤ 90) || (48 ≤ c.val && c.val ≤ 57)
    || c.val == 45 || c.val == 95 || c.val == 46 || c.val == 126

/-- The test `shouldEscape(c, encodeQueryComponent)`. -/
def shouldEscape (c : Byte) : Bool := !unreserved c

/-- The table `upperhex`, indexed by a nibble. -/
def upperhex (n : Nat) : Byte :=
  if n % 16 < 10 then Fin.ofNat (48 + n % 16) else Fin.ofNat (55 + n % 16)

/-- What `escape` writes for one byte in mode `encodeQueryComponent`: `+` for a
space, `%XX` for any other byte that is to be escaped, the byte itself
otherwise. -/
def escapeByte (c : Byte) : GoString :=
  if shouldEscape c then
    if c = 32 then [43] else [37, upperhex (c.val / 16), upperhex (c.val % 16)]
  else [c]

/-- The function `url.QueryEscape`. -/
def QueryEscape (s : GoString) : GoString :=
  s.flatMap escapeByte

/-- The test `ishex`. -/
def ishex (c : Byte) : Bool :=
  (48 ≤ c.val && c.val ≤ 57) || (97 ≤ c.val && c.val ≤ 102) || (65 ≤ c.val && c.val ≤ 70)

/-- The function `unhex`. -/
def unhex (c : Byte) : Nat :=
  if 48 ≤ c.val && c.val ≤ 57 then c.val - 48
  else if 97 ≤ c.val && c.val ≤ 102 then c.val - 97 + 10
  else if 65 ≤ c.val && c.val ≤ 70 then c.val - 65 + 10
  else 0

/-- The function `url.QueryUnescape`: `%XX` becomes the byte `XX`, `+` becomes a
space; a `%` that is not followed by two hex digits is an error. -/
def QueryUnescape : GoString → Except Error GoString
  | [] => .ok []
  | c :: rest =>
    if c = 37 then
      match rest with
      | a :: b :: rest2 =>
        if ishex a && ishex b then
          match QueryUnescape rest2 with
          | .ok r => .ok (Fin.ofNat (unhex a * 16 + unhex b) :: r)
          | .error e => .error e
        else .error (str "invalid URL escape")
      | _ => .error (str "invalid URL escape")
    else
      match QueryUnescape rest with
      | .ok r => .ok ((if c = 43 then 32 else c) :: r)
      | .error e => .error e

/-- The type `url.Values`: `map[string][]string`. -/
abbrev Values := List (GoString × List GoString)

end url

/-! ## Go maps as association lists -/

/-- The map read `m[k]`, `none` when the key is absent. -/
def mapGet {β : Type} : List (GoString × β) → GoString → Option β
  | [], _ => none
  | (k, v) :: m, key => if k = key then some v else mapGet m key

/-- The map write `m[k] = v`: the entry of an existing key is replaced, a new
key gets a new entry. -/
def mapSet {β : Type} : List (GoString × β) → GoString → β → List (GoString × β)
  | [], key, val => [(key, val)]
  | (k, v) :: m, key, val =>
    if k = key then (k, val) :: m else (k, v) :: mapSet m key val

/-- The values stored under a key, the empty slice when the key is absent
(what `m[k]` yields for a `map[string][]string`). -/
def valuesOf (m : url.Values) (key : GoString) : List GoString :=
  (mapGet m key).getD []

namespace url

/-- The method `Values.Set`: the key's values are replaced by the single value. -/
def Values.Set (v : Values) (key value : GoString) : Values :=
  mapSet v key [value]

/-- The method `Values.Add`: the value is appended to the key's values. -/
def Values.Add (v : Values) (key value : GoString) : Values :=
  mapSet v key (valuesOf v key ++ [value])

/-- Byte-wise lexicographic order of Go strings (`a <= b`). -/
def strLE : GoString → GoString → Bool
  | [], _ => true
  | _ :: _, [] => false
  | a :: s, b :: t => if a.val < b.val then true else if b.val < a.val then false else strLE s t

/-- The `key=value` entries `Values.Encode` writes for one key. -/
def encodeKey (k : GoString) (vs : List GoString) : List GoString :=
  vs.map (fun v => QueryEscape k ++ 61 :: QueryEscape v)

/-- The method `Values.Encode`: the entries `key=value` of all keys, keys in
sorted order, both sides query-escaped, joined by `&`. -/
def Values.Encode (v : Values) : GoString :=
  let keys := (v.map Prod.fst).insertionSort (fun a b => strLE a b = true)
  [(38 : Byte)].intercalate (keys.flatMap (fun k => encodeKey k (valuesOf v k)))

/-- The function `strings.Cut(s, sep)` for a one-byte separator: the text before
and after the first separator, and whether one was found. -/
def cut (sep : Byte) : GoString → GoString × GoString × Bool
  | [] => ([], [], false)
  | c :: t =>
    if c = sep then ([], t, true)
    else
      let r := cut sep t
      (c :: r.1, r.2.1, r.2.2)

/-- One round of the loop of `parseQuery` on the segment `key` cut off the
front of the query. -/
def parseSegment (acc : Values × Option Error) (key : GoString) : Values × Option Error :=
  if decide ((59 : Byte) ∈ key) then
    (acc.1, some (str "invalid semicolon separator in query"))
  else if key = [] then acc
  else
    let kv := cut 61 key
    match QueryUnescape kv.1 with
    | .error e1 => (acc.1, some (acc.2.getD e1))
    | .ok k =>
      match QueryUnescape kv.2.1 with
      | .error e1 => (acc.1, some (acc.2.getD e1))
      | .ok val => (Values.Add acc.1 k val, acc.2)

/-- The function `url.ParseQuery`: the query is cut at each `&`, each segment
at its first `=`, both sides are unescaped and the value is appended under the
key.  Returns the values parsed and the first error met. -/
def ParseQuery (query : GoString) : Values × Option Error :=
  (query.splitOn 38).foldl parseSegment ([], none)

end url

/-! ## packages net/textproto and net/http -/

namespace http

/-- The test `validHeaderFieldByte` / `httpguts.IsTokenRune`: the token
characters of RFC 7230. -/
def isTokenByte (c : Byte) : Bool :=
  url.unreserved c || decide (c.val ∈ [33, 35, 36, 37, 38, 39, 42, 43, 94, 96, 124])

/-- The case rule of `canonicalMIMEHeaderKey`: the first letter and every
letter after a hyphen upper case, the others lower case. -/
def canonCase : Bool → GoString → GoString
  | _, [] => []
  | upper, c :: t =>
    let c1 : Byte :=
      if upper && (97 ≤ c.val && c.val ≤ 122) then Fin.ofNat (c.val - 32)
      else if !upper && (65 ≤ c.val && c.val ≤ 90) then Fin.ofNat (c.val + 32)
      else c
    c1 :: canonCase (decide (c1.val = 45)) t

/-- The function `textproto.CanonicalMIMEHeaderKey`: a key with a byte that is
not a token character is returned unchanged. -/
def CanonicalMIMEHeaderKey (s : GoString) : GoString :=
  if s.all isTokenByte then canonCase true s else s

/-- The type `http.Header`: `map[string][]string` with canonical keys. -/
abbrev Header := List (GoString × List GoString)

/-- The method `Header.Set`. -/
def Header.Set (h : Header) (key value : GoString) : Header :=
  mapSet h (CanonicalMIMEHeaderKey key) [value]

/-- The method `Header.Get`: the first value of the key, `""` when absent. -/
def Header.Get (h : Header) (key : GoString) : GoString :=
  match mapGet h (CanonicalMIMEHeaderKey key) with
  | some (v :: _) => v
  | _ => []

/-- The test `validMethod`. -/
def validMethod (method : GoString) : Bool :=
  decide (0 < method.length) && method.all isTokenByte

end http

/-! ## Data model -/

/-- What a call yields: it returns a value, or the process ends inside
`log.Fatal`, which logs the message and exits with status 1. -/
inductive Outcome (α : Type) where
  | returned (a : α)
  | fatal (msg : GoString)

/-- An open file of `YopRequest.Files`: its name and the bytes read from it. -/
structure File where
  Name : GoString
  Content : List Byte
deriving DecidableEq

/-- The struct behind `YopRequest.PlatformPubKey`. -/
structure PlatformPubKey where
  Value : GoString
  CertType : GoString
deriving DecidableEq

/-- The fields of `request.YopRequest` that the client reads or writes.
`Timeout` is a `time.Duration` in nanoseconds. -/
structure YopRequest where
  RequestId : GoString
  ServerRoot : GoString
  ApiUri : GoString
  HttpMethod : GoString
  AppId : GoString
  Content : GoString
  Timeout : Nat
  Params : List (GoString × List GoString)
  Headers : List (GoString × GoString)
  Files : List (GoString × File)
  PlatformPubKey : PlatformPubKey
deriving DecidableEq

/-- One part written through a `multipart.Writer`, in write order; the byte
framing around the parts is not modelled. -/
inductive Part where
  | field (name value : GoString)
  | file (fieldname filename : GoString) (content : List Byte)
deriving DecidableEq

/-- The body handed to `http.NewRequestWithContext`: nothing, a buffer of bytes,
a buffer holding a finished multipart body, or the read end of an `io.Pipe`,
whose bytes are whatever the writing goroutine gets to write. -/
inductive Body where
  | none
  | bytes (b : List Byte)
  | multipart (boundary : GoString) (parts : List Part)
  | pipe
deriving DecidableEq

/-- The `context.Context` of a request: its timeout and whether `cancel` has
been called. -/
structure Context where
  timeout : Nat
  cancelled : Bool
deriving DecidableEq

/-- The fields of `http.Request` the client sets.  `URL` is the target as
passed to `NewRequestWithContext`. -/
structure HttpRequest where
  ctx : Context
  Method : GoString
  URL : GoString
  Header : http.Header
  Body : Body
deriving DecidableEq

/-- The fields of `http.Response` the client reads; `Body` is what
`io.ReadAll` yields on it. -/
structure HttpResponse where
  StatusCode : Nat
  Header : http.Header
  Body : Except Error (List Byte)

/-- The struct `response.YopResponseMetadata`. -/
structure YopResponseMetadata where
  YopSign : GoString
  YopRequestId : GoString
deriving DecidableEq

/-- The struct `response.YopResponse`: the fields the client sets, and `Other`
for the fields only analyzers touch (zero when the client builds the value). -/
structure YopResponse where
  Content : List Byte
  Metadata : Option YopResponseMetadata
  Other : GoString
deriving DecidableEq

/-- The state of an `auth.RsaSigner`. -/
structure RsaSigner where
  material : GoString
deriving DecidableEq

/-- The struct `response.RespHandleContext`.  The signer and the response are
held by pointer, so what an analyzer does to them is seen by later analyzers
and by the caller. -/
structure RespHandleContext where
  YopSigner : RsaSigner
  YopResponse : YopResponse
  YopRequest : YopRequest
deriving DecidableEq

/-- What one call of `Analyze(context, httpResp)` leaves behind: the objects
reachable from its arguments, and the error it returns. -/
structure AnalyzeResult where
  ctx : RespHandleContext
  httpResp : HttpResponse
  err : Option Error

/-- An element of `response.ANALYZER_CHAIN`. -/
abbrev Analyzer := RespHandleContext → HttpResponse → AnalyzeResult

/-- What `signer.SignRequest(*yopRequest)` leaves behind: the signer, the
header map of the request (shared with the caller's request) and the error. -/
structure SignResult where
  signer : RsaSigner
  Headers : List (GoString × GoString)
  err : Option Error

/-- The declarations of other packages that the client uses, and the network. -/
structure Env where
  /-- The constant `constants.CONTENT_TYPE`. -/
  CONTENT_TYPE : GoString
  /-- The constant `constants.YOP_HTTP_CONTENT_TYPE_JSON`. -/
  YOP_HTTP_CONTENT_TYPE_JSON : GoString
  /-- The constant `constants.YOP_HTTP_CONTENT_TYPE_FORM`. -/
  YOP_HTTP_CONTENT_TYPE_FORM : GoString
  /-- The constant `constants.YOP_REQUEST_ID`. -/
  YOP_REQUEST_ID : GoString
  /-- The constant `constants.YOP_APPKEY_HEADER_KEY`. -/
  YOP_APPKEY_HEADER_KEY : GoString
  /-- The constant `constants.USER_AGENT_HEADER_KEY`. -/
  USER_AGENT_HEADER_KEY : GoString
  /-- The constant `constants.SDK_VERSION`. -/
  SDK_VERSION : GoString
  /-- The constant `runtime.GOOS`. -/
  GOOS : GoString
  /-- The result of `runtime.Version()`. -/
  Version : GoString
  /-- The constant `request.YOP_PLATFORM_PUBLIC_KEY`. -/
  YOP_PLATFORM_PUBLIC_KEY : GoString
  /-- The constant `request.RSA2048`. -/
  RSA2048 : GoString
  /-- The method `YopRequest.HandleServerRoot`. -/
  HandleServerRoot : YopRequest → YopRequest
  /-- The function `utils.EncodeParameters`. -/
  EncodeParameters : List (GoString × List GoString) → Bool → GoString
  /-- The string of the n-th id that `uuid.NewV4()` hands out. -/
  NewV4 : Nat → GoString
  /-- The method `RsaSigner.SignRequest` on a fresh signer. -/
  SignRequest : YopRequest → SignResult
  /-- The error of `url.Parse` on a target, `none` when it parses. -/
  urlParseError : GoString → Option Error
  /-- The method `Client.Do` of the client's `http.Client`. -/
  Do : HttpRequest → Except Error HttpResponse
  /-- The method `Do` of `http.DefaultClient`, which fetches the source of a
  streaming upload. -/
  DefaultClientDo : HttpRequest → Except Error HttpResponse
  /-- The field `Path` of the URL that `url.Parse` yields on a target that
  parses. -/
  urlPath : GoString → GoString
  /-- The boundary a new `multipart.Writer` draws. -/
  boundary : GoString
  /-- The variable `response.ANALYZER_CHAIN`. -/
  ANALYZER_CHAIN : List Analyzer

/-- What the calls made so far have left outside the program's values. -/
structure World where
  /-- How many ids `uuid.NewV4()` has handed out. -/
  uuidCalls : Nat
  /-- The lines written by `log.Println`. -/
  logs : List GoString
  /-- The requests handed to `Client.Do`, oldest first. -/
  sent : List HttpRequest
  /-- The analyzers invoked, oldest first: position in the chain and the
  error returned. -/
  analyzed : List (Nat × Option Error)
deriving DecidableEq

/-- What a client operation hands back: the world afterwards, the caller's
request (changed in place through the pointer), and the pair
`(*YopResponse, error)`. -/
structure CallResult where
  world : World
  request : YopRequest
  response : Option YopResponse
  err : Option Error
deriving DecidableEq

/-- Modelled from the spec: the constant `constants.POST_HTTP_METHOD` is declared outside
this file; section 4.5 has "multipart is only legal for POST", and the client
itself writes the literal `"POST"` where it tests the same thing. -/
def POST_HTTP_METHOD : GoString := str "POST"

/-- The constant `time.Second`, in nanoseconds. -/
def Second : Nat := 1000000000

/-! ## package net/http: building a request -/

namespace http

/-- The function `http.NewRequestWithContext`: an empty method means `GET`, the
method must be a token and the target must parse; the new request has an empty
header map. -/
def NewRequestWithContext (env : Env) (ctx : Context) (method target : GoString) (body : Body) :
    Except Error HttpRequest :=
  let method := if method = [] then str "GET" else method
  if !validMethod method then .error (str "net/http: invalid method")
  else
    match env.urlParseError target with
    | some e => .error e
    | none => .ok { ctx := ctx, Method := method, URL := target, Header := [], Body := body }

end http

/-- The method `multipart.Writer.FormDataContentType` for a boundary that needs
no quoting (the boundaries the writer draws are hexadecimal). -/
def FormDataContentType (boundary : GoString) : GoString :=
  str "multipart/form-data; boundary=" ++ boundary

/-! ## yop/client/yop_client.go -/

/-- The function `buildUserAgent` (line 288). -/
def buildUserAgent (env : Env) : GoString :=
  str "go" ++ str "/" ++ env.SDK_VERSION ++ str "/" ++ env.GOOS ++ str "/" ++ env.Version

/-- The function `addStandardHeaders` (line 281): the header map is replaced by
a new map holding the three standard headers. -/
def addStandardHeaders (env : Env) (yopRequest : YopRequest) : YopRequest :=
  let h0 : List (GoString × GoString) := []
  let h1 := mapSet h0 env.YOP_REQUEST_ID yopRequest.RequestId
  let h2 := mapSet h1 env.YOP_APPKEY_HEADER_KEY yopRequest.AppId
  let h3 := mapSet h2 env.USER_AGENT_HEADER_KEY (buildUserAgent env)
  { yopRequest with Headers := h3 }

/-- The function `initRequest` (line 269). -/
def initRequest (env : Env) (w : World) (yopRequest : YopRequest) : World × YopRequest :=
  let r1 := { yopRequest with RequestId := env.NewV4 w.uuidCalls }
  let w1 := { w with uuidCalls := w.uuidCalls + 1,
                     logs := w.logs ++ [str "requestId:" ++ r1.RequestId] }
  let r2 := if r1.ServerRoot.length = 0 then env.HandleServerRoot r1 else r1
  let r3 :=
    if r2.PlatformPubKey.Value.length = 0 then
      { r2 with PlatformPubKey :=
          { Value := env.YOP_PLATFORM_PUBLIC_KEY, CertType := env.RSA2048 } }
    else r2
  (w1, addStandardHeaders env r3)

/-- The function `checkForMultiPart` (line 366).  On files with a method other
than POST the call of `log.Fatal` ends the process; the `return` that follows
it in the source is never reached. -/
def checkForMultiPart (yopRequest : YopRequest) : Outcome (Except Error Bool) :=
  let result := decide (0 < yopRequest.Files.length)
  if result && !decide (POST_HTTP_METHOD = yopRequest.HttpMethod) then
    .fatal (str "ContentType:multipart/form-data only support Post Request")
  else .returned (.ok result)

/-- The function `getContentType` (line 376). -/
def getContentType (env : Env) (yopRequest : YopRequest) : GoString :=
  if decide (str "POST" = yopRequest.HttpMethod) && decide (0 < yopRequest.Content.length) then
    env.YOP_HTTP_CONTENT_TYPE_JSON
  else if 0 < yopRequest.Params.length then env.YOP_HTTP_CONTENT_TYPE_FORM
  else env.YOP_HTTP_CONTENT_TYPE_FORM

/-- The loops `for k, v := range Params { for i := range v { WriteField(k,
url.QueryEscape(v[i])) } }` (lines 309, 177, 112): one form field per value. -/
def writeParamFields (params : List (GoString × List GoString)) : List Part :=
  params.flatMap (fun kv => kv.2.map (fun x => Part.field kv.1 (url.QueryEscape x)))

/-- The loop of lines 343 to 348: `formValues.Set(k, url.QueryEscape(v[i]))`
for every value of every key, starting from `formValues`. -/
def setFormValues (formValues : url.Values) (params : List (GoString × List GoString)) :
    url.Values :=
  params.foldl
    (fun fv kv => kv.2.foldl (fun fv1 x => url.Values.Set fv1 kv.1 (url.QueryEscape x)) fv)
    formValues

/-- The loop `for k, v := range yopRequest.Headers { Header.Set(k, v) }`
(lines 360, 205, 138). -/
def setHeaders (h : http.Header) (headers : List (GoString × GoString)) : http.Header :=
  headers.foldl (fun acc kv => http.Header.Set acc kv.1 kv.2) h

/-- The function `buildHttpRequest` (line 292).  The deferred `cancel()` runs
when the function returns, so the context of the request handed back is
already cancelled. -/
def buildHttpRequest (env : Env) (yopRequest : YopRequest) : Outcome (Except Error HttpRequest) :=
  let timeout := if yopRequest.Timeout = 0 then 10 * Second else yopRequest.Timeout
  let ctx : Context := { timeout := timeout, cancelled := false }
  let uri := yopRequest.ServerRoot ++ yopRequest.ApiUri
  match checkForMultiPart yopRequest with
  | .fatal msg => .fatal msg
  | .returned (.error err) => .returned (.error err)
  | .returned (.ok isMultiPart) =>
    let built : Except Error HttpRequest :=
      if isMultiPart then
        let fields := writeParamFields yopRequest.Params
        let files := yopRequest.Files.map (fun kv => Part.file kv.1 kv.2.Name kv.2.Content)
        match http.NewRequestWithContext env ctx (str "POST") uri
            (Body.multipart env.boundary (fields ++ files)) with
        | .error err => .error err
        | .ok req =>
          .ok { req with Header :=
                  http.Header.Set req.Header (str "Content-Type") (FormDataContentType env.boundary) }
      else
        let encodedParam := env.EncodeParameters yopRequest.Params false
        let requestHasPayload := decide (0 < yopRequest.Content.length)
        let requestIsPost := decide (POST_HTTP_METHOD = yopRequest.HttpMethod)
        let putParamsInUri := !requestIsPost || requestHasPayload
        let uri := if decide (0 < encodedParam.length) && putParamsInUri
          then uri ++ str "?" ++ encodedParam else uri
        let body : Body :=
          if POST_HTTP_METHOD = yopRequest.HttpMethod then
            if 0 < yopRequest.Content.length then Body.bytes yopRequest.Content
            else Body.bytes (url.Values.Encode (setFormValues [] yopRequest.Params))
          else Body.none
        match http.NewRequestWithContext env ctx yopRequest.HttpMethod uri body with
        | .error err => .error err
        | .ok httpRequest =>
          .ok { httpRequest with Header :=
                  http.Header.Set httpRequest.Header env.CONTENT_TYPE (getContentType env yopRequest) }
    match built with
    | .error err => .returned (.error err)
    | .ok result =>
      .returned (.ok { result with
        Header := setHeaders result.Header yopRequest.Headers,
        ctx := { result.ctx with cancelled := true } })

/-- The loop over `response.ANALYZER_CHAIN` (lines 261, 224, 157): the
analyzers are called in order from position `i` on; the first error ends the
loop.  Every call is recorded in the world.  The result is the world, the
objects the analyzers worked on, and the error that ended the loop. -/
def runAnalyzerChain : List Analyzer → Nat → World → RespHandleContext → HttpResponse →
    World × RespHandleContext × HttpResponse × Option Error
  | [], _, w, context, httpResp => (w, context, httpResp, none)
  | a :: rest, i, w, context, httpResp =>
    let r := a context httpResp
    let w1 := { w with analyzed := w.analyzed ++ [(i, r.err)] }
    match r.err with
    | some err => (w1, r.ctx, r.httpResp, some err)
    | none => runAnalyzerChain rest (i + 1) w1 r.ctx r.httpResp

/-- The context built at lines 255 to 260 (218 to 223, 151 to 156): the
response with the body read and the two metadata headers, the signer and the
request. -/
def respHandleContext (signer : RsaSigner) (request : YopRequest) (httpResp : HttpResponse)
    (body : List Byte) : RespHandleContext :=
  let metaData : YopResponseMetadata :=
    { YopSign := http.Header.Get httpResp.Header (str "X-Yop-Sign"),
      YopRequestId := http.Header.Get httpResp.Header (str "X-Yop-Request-Id") }
  let yopResponse : YopResponse := { Content := body, Metadata := some metaData, Other := [] }
  { YopSigner := signer, YopResponse := yopResponse, YopRequest := request }

/-- The common tail of the three client operations (lines 251 to 267, 214 to
230, 147 to 163): read the body, build the response and its metadata, run the
analyzer chain, and return the response only when the chain raised no error. -/
def handleResponse (env : Env) (w : World) (signer : RsaSigner) (request : YopRequest)
    (httpResp : HttpResponse) : CallResult :=
  match httpResp.Body with
  | .error err => { world := w, request := request, response := none, err := some err }
  | .ok body =>
    match runAnalyzerChain env.ANALYZER_CHAIN 0 w
        (respHandleContext signer request httpResp body) httpResp with
    | (w1, _, _, some err) =>
      { world := w1, request := request, response := none, err := some err }
    | (w1, c, _, none) =>
      { world := w1, request := request, response := some c.YopResponse, err := none }

/-- Where an operation stands once `Client.Do` has handed back a response. -/
structure Exchange where
  world : World
  signer : RsaSigner
  request : YopRequest
  httpResp : HttpResponse

/-- The first part of `YopClient.Request` (lines 235 to 249): assemble the
context, sign, build the HTTP request and send it.  The result is the early
return `(nil, err)` of the operation, or the response received. -/
def sendRequest (env : Env) (w : World) (request : YopRequest) :
    Outcome (Except CallResult Exchange) :=
  let (w, request) := initRequest env w request
  let signed := env.SignRequest request
  let request := { request with Headers := signed.Headers }
  match signed.err with
  | some err =>
    .returned (.error { world := w, request := request, response := none, err := some err })
  | none =>
    match buildHttpRequest env request with
    | .fatal msg => .fatal msg
    | .returned (.error err) =>
      .returned (.error { world := w, request := request, response := none, err := some err })
    | .returned (.ok httpRequest) =>
      let w := { w with sent := w.sent ++ [httpRequest] }
      match env.Do httpRequest with
      | .error err =>
        .returned (.error { world := w, request := request, response := none, err := some err })
      | .ok httpResp =>
        .returned (.ok { world := w, signer := signed.signer, request := request,
                         httpResp := httpResp })

/-- The method `YopClient.Request` (line 234). -/
def Request (env : Env) (w : World) (request : YopRequest) : Outcome CallResult :=
  match sendRequest env w request with
  | .fatal msg => .fatal msg
  | .returned (.error early) => .returned early
  | .returned (.ok x) => .returned (handleResponse env x.world x.signer x.request x.httpResp)

/-- The first part of `YopClient.MultiPartUploadFileByBytes` (lines 168 to
212): assemble the context, sign, write the multipart body, build the HTTP
request and send it.  The writes go to a `bytes.Buffer`, which never fails, so
the two error returns of the writing part are not reachable. -/
def sendUpload (env : Env) (w : World) (yopRequest : YopRequest)
    (fieldName filename : GoString) (byte : List Byte) : Except CallResult Exchange :=
  let (w, yopRequest) := initRequest env w yopRequest
  let signed := env.SignRequest yopRequest
  let yopRequest := { yopRequest with Headers := signed.Headers }
  match signed.err with
  | some err => .error { world := w, request := yopRequest, response := none, err := some err }
  | none =>
    let parts := writeParamFields yopRequest.Params ++ [Part.file fieldName filename byte]
    let yopRequest :=
      if yopRequest.Timeout = 0 then { yopRequest with Timeout := 10 * Second } else yopRequest
    let ctx : Context := { timeout := yopRequest.Timeout, cancelled := false }
    let uri := yopRequest.ServerRoot ++ yopRequest.ApiUri
    match http.NewRequestWithContext env ctx (str "POST") uri
        (Body.multipart env.boundary parts) with
    | .error err => .error { world := w, request := yopRequest, response := none, err := some err }
    | .ok req =>
      let header := http.Header.Set req.Header (str "Content-Type") (FormDataContentType env.boundary)
      let httpRequest := { req with Header := setHeaders header yopRequest.Headers }
      let w := { w with sent := w.sent ++ [httpRequest] }
      match env.Do httpRequest with
      | .error err => .error { world := w, request := yopRequest, response := none, err := some err }
      | .ok httpResp =>
        .ok { world := w, signer := signed.signer, request := yopRequest, httpResp := httpResp }

/-- The method `YopClient.MultiPartUploadFileByBytes` (line 167). -/
def MultiPartUploadFileByBytes (env : Env) (w : World) (yopRequest : YopRequest)
    (fieldName filename : GoString) (byte : List Byte) : CallResult :=
  match sendUpload env w yopRequest fieldName filename byte with
  | .error early => early
  | .ok x => handleResponse env x.world x.signer x.request x.httpResp

/-- The filename derivation of `MultiPartUploadFileByUrl` (lines 64 to 106), as
a function of the caller's filename, the `Content-Disposition` and
`Content-Type` headers of the download response (`""` when absent) and the
`Path` of the parsed source URL.  The cutset of `Trim` is the double and the
single quote (bytes 34 and 39). -/
def deriveFilename (filename disposition contentType urlPath : GoString) : GoString :=
  if filename = [] then
    let filename :=
      if disposition ≠ [] then
        if strings.Contains disposition (str "filename=") then
          let start := strings.Index disposition (str "filename=") + 9
          strings.Trim (disposition.drop start.toNat) [34, 39]
        else filename
      else filename
    if filename = [] then
      let filename := filepath.Base urlPath
      if filename = str "." ∨ filename = str "/" then
        if strings.Contains contentType (str "text/plain") then str "file.txt"
        else if strings.Contains contentType (str "application/pdf") then str "file.pdf"
        else if strings.Contains contentType (str "application/zip") then str "file.zip"
        else if strings.Contains contentType (str "image/jpeg") then str "image.jpg"
        else if strings.Contains contentType (str "image/gif") then str "image.gif"
        else if strings.Contains contentType (str "image/png") then str "image.png"
        else if strings.Contains contentType (str "audio/ogg") then str "audio.ogg"
        else if strings.Contains contentType (str "audio/mpeg") then str "audio.mp3"
        else if strings.Contains contentType (str "video/mp4") then str "video.mp4"
        else if strings.Contains contentType (str "video/webm") then str "video.webm"
        else str "file"
      else filename
    else filename
  else filename

/-! ## MultiPartUploadFileByUrl

The operation starts a goroutine (line 110) that writes the multipart body
into a pipe while the caller sends the request and handles the response.  The
goroutine assigns the variable `err` of the operation (line 114), the same
variable that the caller assigns and tests at lines 133 to 159.  The embedding
is a step function on the state of the two goroutines; a schedule says whose
turn it is.  A write to the pipe returns once the reader has taken the bytes or
closed its end; from the call of `Client.Do` on, when that happens, and with
which result, is up to the transport, so it is part of the schedule. -/

/-- Where the calling goroutine stands after line 110, with the local
variables that are live there. -/
inductive UrlPc where
  /-- About to run line 133. -/
  | newRequest
  /-- About to test `err` at line 134. -/
  | testNewRequest (httpRequest : Option HttpRequest)
  /-- About to set the headers and call `Client.Do` (lines 137 to 142). -/
  | send (httpRequest : Option HttpRequest)
  /-- Inside `Client.Do` (line 142); its results are not assigned yet. -/
  | sending (httpRequest : HttpRequest)
  /-- About to test `err` at line 143. -/
  | testSend (httpResp : Option HttpResponse)
  /-- About to read the body (lines 146 and 147). -/
  | read (httpResp : Option HttpResponse)
  /-- About to test `err` at line 148. -/
  | testRead (httpResp : HttpResponse) (body : List Byte)
  /-- About to call the analyzer at position `i` (line 158), or to leave the
  loop when there is none (line 163). -/
  | analyze (i : Nat) (context : RespHandleContext) (httpResp : HttpResponse)
  /-- About to test `err` at line 159. -/
  | testAnalyze (i : Nat) (context : RespHandleContext) (httpResp : HttpResponse)
  /-- The operation has returned `(response, err)`. -/
  | returned (response : Option YopResponse) (err : Option Error)
  /-- A nil pointer was dereferenced. -/
  | panicked

/-- Whether the transport has been given the read end of the pipe, which
happens in the call of `Client.Do`.  Before that nothing reads the pipe, and a
write to it blocks. -/
def UrlPc.readerStarted : UrlPc → Bool
  | .newRequest => false
  | .testNewRequest _ => false
  | .send _ => false
  | _ => true

/-- Where the writer goroutine (lines 110 to 128) stands: it still has the
given form fields to write and then the file, or it has returned. -/
inductive WriterPc where
  | writing (pending : List Part)
  | finished
deriving DecidableEq

/-- The state of a run of `MultiPartUploadFileByUrl`. -/
structure UrlUpload where
  world : World
  /-- The caller's request, changed in place. -/
  request : YopRequest
  signer : RsaSigner
  ctx : Context
  fieldName : GoString
  filename : GoString
  /-- What reading `downloadResp.Body` yields. -/
  source : Except Error (List Byte)
  /-- The variable `err` declared at line 46, which both goroutines assign. -/
  err : Option Error
  pc : UrlPc
  writer : WriterPc
  /-- The parts written into the pipe so far. -/
  written : List Part
  /-- Whether the write end of the pipe has been closed, and with which error. -/
  closed : Option (Option Error)

/-- One entry of a schedule. -/
inductive Turn where
  /-- The calling goroutine runs its next statement. -/
  | caller
  /-- The pending `WriteField` call of the writer goroutine returns `result`,
  and line 114 assigns it to `err`. -/
  | writeField (result : Option Error)
  /-- The writer goroutine creates the file part and `io.Copy` returns; `result`
  is the error of the write side, if any (lines 121 to 127). -/
  | copyFile (result : Option Error)
deriving DecidableEq

/-- The statements of `MultiPartUploadFileByUrl` up to the start of the writer
goroutine (lines 44 to 110).  A source URL that does not parse leaves
`downloadHttpReq` nil (the error of line 55 is dropped), and `Do` panics on it. -/
def startUrlUpload (env : Env) (w : World) (yopRequest : YopRequest)
    (fieldName filename sourceUrl : GoString) : UrlUpload :=
  let (w, yopRequest) := initRequest env w yopRequest
  let signed := env.SignRequest yopRequest
  let yopRequest := { yopRequest with Headers := signed.Headers }
  let early (yopRequest : YopRequest) (pc : UrlPc) : UrlUpload :=
    { world := w, request := yopRequest, signer := signed.signer,
      ctx := { timeout := yopRequest.Timeout, cancelled := false },
      fieldName := fieldName, filename := filename, source := .ok [], err := signed.err,
      pc := pc, writer := .finished, written := [], closed := none }
  match signed.err with
  | some err => early yopRequest (.returned none (some err))
  | none =>
    let yopRequest :=
      if yopRequest.Timeout = 0 then { yopRequest with Timeout := 10 * Second } else yopRequest
    let ctx : Context := { timeout := yopRequest.Timeout, cancelled := false }
    match http.NewRequestWithContext env ctx (str "GET") sourceUrl Body.none with
    | .error _ => early yopRequest .panicked
    | .ok downloadHttpReq =>
      match env.DefaultClientDo downloadHttpReq with
      | .error err => { early yopRequest (.returned none (some err)) with err := some err }
      | .ok downloadResp =>
        if downloadResp.StatusCode ≠ 200 then
          early yopRequest (.returned none
            (some (str "download file failed: " ++ str (toString downloadResp.StatusCode))))
        else
          { world := w, request := yopRequest, signer := signed.signer, ctx := ctx,
            fieldName := fieldName,
            filename := deriveFilename filename
              (http.Header.Get downloadResp.Header (str "Content-Disposition"))
              (http.Header.Get downloadResp.Header (str "Content-Type"))
              (env.urlPath sourceUrl),
            source := downloadResp.Body, err := none, pc := .newRequest,
            writer := .writing (writeParamFields yopRequest.Params),
            written := [], closed := none }

/-- The next statement of the calling goroutine (lines 133 to 163).  Every
assignment to `err` and every test of `err` is a step of its own. -/
def callerStep (env : Env) (s : UrlUpload) : UrlUpload :=
  match s.pc with
  | .newRequest =>
    match http.NewRequestWithContext env s.ctx (str "POST")
        (s.request.ServerRoot ++ s.request.ApiUri) Body.pipe with
    | .error err => { s with err := some err, pc := .testNewRequest none }
    | .ok httpRequest => { s with err := none, pc := .testNewRequest (some httpRequest) }
  | .testNewRequest httpRequest =>
    match s.err with
    | some err => { s with pc := .returned none (some err) }
    | none => { s with pc := .send httpRequest }
  | .send none => { s with pc := .panicked }
  | .send (some req) =>
    let header := http.Header.Set req.Header (str "Content-Type") (FormDataContentType env.boundary)
    let httpRequest := { req with Header := setHeaders header s.request.Headers }
    { s with world := { s.world with sent := s.world.sent ++ [httpRequest] },
             pc := .sending httpRequest }
  | .sending httpRequest =>
    match env.Do httpRequest with
    | .error err => { s with err := some err, pc := .testSend none }
    | .ok httpResp => { s with err := none, pc := .testSend (some httpResp) }
  | .testSend httpResp =>
    match s.err with
    | some err => { s with pc := .returned none (some err) }
    | none => { s with pc := .read httpResp }
  | .read none => { s with pc := .panicked }
  | .read (some httpResp) =>
    match httpResp.Body with
    | .error err => { s with err := some err, pc := .testRead httpResp [] }
    | .ok body => { s with err := none, pc := .testRead httpResp body }
  | .testRead httpResp body =>
    match s.err with
    | some err => { s with pc := .returned none (some err) }
    | none =>
      { s with pc := .analyze 0 (respHandleContext s.signer s.request httpResp body) httpResp }
  | .analyze i context httpResp =>
    match env.ANALYZER_CHAIN[i]? with
    | none => { s with pc := .returned (some context.YopResponse) none }
    | some a =>
      let r := a context httpResp
      { s with
        world := { s.world with analyzed := s.world.analyzed ++ [(i, r.err)] },
        err := r.err, pc := .testAnalyze i r.ctx r.httpResp }
  | .testAnalyze i context httpResp =>
    match s.err with
    | some err => { s with pc := .returned none (some err) }
    | none => { s with pc := .analyze (i + 1) context httpResp }
  | .returned _ _ => s
  | .panicked => s

/-- The writer goroutine gets past a write to the pipe (lines 112 to 127): a
pending `WriteField` returns and line 114 assigns its result to `err`, or the
file part is created and `io.Copy` returns.  A turn that does not fit the
position of the writer changes nothing. -/
def writerStep (s : UrlUpload) (t : Turn) : UrlUpload :=
  match t with
  | .caller => s
  | .writeField result =>
    match s.writer with
    | .writing (p :: rest) =>
      match result with
      | some err =>
        { s with err := some err, writer := .finished, closed := some (some err) }
      | none => { s with err := none, writer := .writing rest, written := s.written ++ [p] }
    | _ => s
  | .copyFile result =>
    match s.writer with
    | .writing [] =>
      let copyErr : Option Error :=
        match s.source with
        | .error err => some err
        | .ok _ => result
      match copyErr, s.source with
      | none, .ok content =>
        { s with writer := .finished, closed := some none,
                 written := s.written ++ [Part.file s.fieldName s.filename content] }
      | some copyErr, _ =>
        { s with writer := .finished,
                 closed := some (some (str "copy file failed: " ++ copyErr)) }
      | none, .error _ => s
    | _ => s

/-- One turn of the schedule.  The writer goroutine cannot get past a write
before the transport has the read end of the pipe. -/
def urlStep (env : Env) (s : UrlUpload) (t : Turn) : UrlUpload :=
  match t with
  | .caller => callerStep env s
  | t => if s.pc.readerStarted then writerStep s t else s

/-- The method `YopClient.MultiPartUploadFileByUrl` (line 43) under a schedule:
the state reached when the turns of the schedule have been taken. -/
def MultiPartUploadFileByUrl (env : Env) (w : World) (yopRequest : YopRequest)
    (fieldName filename sourceUrl : GoString) (schedule : List Turn) : UrlUpload :=
  schedule.foldl (urlStep env) (startUrlUpload env w yopRequest fieldName filename sourceUrl)


/-! ## Reading the form body back -/

/-- The function `url.QueryUnescape` on every value of a list; the first error
is returned. -/
def unescapeValues : List GoString → Except Error (List GoString)
  | [] => .ok []
  | v :: t =>
    match url.QueryUnescape v with
    | .error err => .error err
    | .ok u =>
      match unescapeValues t with
      | .error err => .error err
      | .ok us => .ok (u :: us)

/-- The values of every key unescaped. -/
def unescapeAll : url.Values → Except Error url.Values
  | [] => .ok []
  | (k, vs) :: t =>
    match unescapeValues vs with
    | .error err => .error err
    | .ok us =>
      match unescapeAll t with
      | .error err => .error err
      | .ok rest => .ok ((k, us) :: rest)

/-- The decoder of the round trip: `url.ParseQuery` on the body, then
`url.QueryUnescape` on every value.  An error of either step is returned. -/
def decodeForm (body : GoString) : Except Error url.Values :=
  match url.ParseQuery body with
  | (_, some err) => .error err
  | (parsed, none) => unescapeAll parsed

/-- The form-url-encoding of the percent-encoded parameters, as the spec words
the body of a POST without raw content: every value of every key, escaped, as
an entry of its own. -/
def formUrlEncode (params : List (GoString × List GoString)) : GoString :=
  url.Values.Encode (params.map (fun kv => (kv.1, kv.2.map url.QueryEscape)))

/-! ## Concrete inputs -/

/-- An analyzer that accepts every response and changes nothing. -/
def passAnalyzer : Analyzer :=
  fun context httpResp => { ctx := context, httpResp := httpResp, err := none }

/-- An analyzer that rejects every response with the given error. -/
def failAnalyzer (e : Error) : Analyzer :=
  fun context httpResp => { ctx := context, httpResp := httpResp, err := some e }

/-- A concrete environment, to evaluate the embedding on concrete requests:
the header names of section 6 of the spec, clients that refuse a request whose
context is cancelled and otherwise answer `200`, and a chain of three analyzers
whose second one rejects. -/
def sampleEnv : Env where
  CONTENT_TYPE := str "Content-Type"
  YOP_HTTP_CONTENT_TYPE_JSON := str "application/json"
  YOP_HTTP_CONTENT_TYPE_FORM := str "application/x-www-form-urlencoded"
  YOP_REQUEST_ID := str "x-yop-request-id"
  YOP_APPKEY_HEADER_KEY := str "x-yop-appkey"
  USER_AGENT_HEADER_KEY := str "user-agent"
  SDK_VERSION := str "4.3.0"
  GOOS := str "linux"
  Version := str "go1.21.0"
  YOP_PLATFORM_PUBLIC_KEY := str "MIIBIjAN"
  RSA2048 := str "RSA2048"
  HandleServerRoot := fun r => { r with ServerRoot := str "https://openapi.yeepay.com/yop-center" }
  EncodeParameters := fun params _ =>
    [(38 : Byte)].intercalate
      (params.flatMap (fun kv => kv.2.map (fun x => kv.1 ++ 61 :: url.QueryEscape x)))
  NewV4 := fun n => str "uuid-" ++ [Fin.ofNat (48 + n % 10)]
  SignRequest := fun r =>
    { signer := { material := str "sig" },
      Headers := mapSet r.Headers (str "Authorization") (str "YOP-RSA2048-SHA256 sig"),
      err := none }
  urlParseError := fun target =>
    if target.any (fun c => decide (c.val < 32) || decide (c.val = 127)) then
      some (str "net/url: invalid control character in URL")
    else none
  Do := fun r =>
    if r.ctx.cancelled then .error (str "context canceled")
    else .ok { StatusCode := 200, Header := [], Body := .ok (str "ok") }
  DefaultClientDo := fun r =>
    if r.ctx.cancelled then .error (str "context canceled")
    else .ok { StatusCode := 200, Header := [(str "Content-Type", [str "image/png"])],
               Body := .ok (str "png") }
  urlPath := fun target =>
    ((target.dropWhile (fun c => !decide (c = 47))).drop 2).dropWhile (fun c => !decide (c = 47))
  boundary := str "b0"
  ANALYZER_CHAIN := [passAnalyzer, failAnalyzer (str "rejected"), passAnalyzer]

/-- The world before any call. -/
def world0 : World := { uuidCalls := 0, logs := [], sent := [], analyzed := [] }

/-- A POST request to `https://h/p` with nothing else set. -/
def postRequest : YopRequest :=
  { RequestId := [], ServerRoot := str "https://h", ApiUri := str "/p", HttpMethod := str "POST",
    AppId := str "app", Content := [], Timeout := 0, Params := [], Headers := [], Files := [],
    PlatformPubKey := { Value := [], CertType := [] } }

/-- A GET request that carries a file. -/
def getWithFile : YopRequest :=
  { postRequest with
    HttpMethod := str "GET",
    Files := [(str "file", { Name := str "a.txt", Content := str "hi" })] }

/-- A POST request without raw content whose parameter `a` has the two values
`1` and `2`. -/
def postTwoValues : YopRequest :=
  { postRequest with Params := [(str "a", [str "1", str "2"])] }

/-- A POST request on which the caller has set the header `X-Custom: 1`. -/
def postCustomHeader : YopRequest :=
  { postRequest with Headers := [(str "X-Custom", str "1")] }

/-- A POST request whose header map holds `content-type: text/xml` when the
builder runs. -/
def postXmlHeader : YopRequest :=
  { postRequest with Headers := [(str "content-type", str "text/xml")] }

/-- A POST request with the raw content `{}` and one parameter. -/
def postJson : YopRequest :=
  { postRequest with Content := str "{}", Params := [(str "a", [str "1"])] }

/-- A request with the base URL and the platform key set by the caller. -/
def presetRequest : YopRequest :=
  { postRequest with PlatformPubKey := { Value := str "KEY", CertType := str "SM2" } }

/-- The exchange `sendUpload` reaches in `sampleEnv` on `postRequest` with the
file `a.txt` of content `hi` under the field `file`. -/
def uploadExchange : Exchange :=
  { world :=
      { uuidCalls := 1, logs := [str "requestId:uuid-0"],
        sent := [{ ctx := { timeout := 10 * Second, cancelled := false },
                   Method := str "POST", URL := str "https://h/p",
                   Header := [(str "Content-Type", [str "multipart/form-data; boundary=b0"]),
                              (str "X-Yop-Request-Id", [str "uuid-0"]),
                              (str "X-Yop-Appkey", [str "app"]),
                              (str "User-Agent", [str "go/4.3.0/linux/go1.21.0"]),
                              (str "Authorization", [str "YOP-RSA2048-SHA256 sig"])],
                   Body := Body.multipart (str "b0")
                     [Part.file (str "file") (str "a.txt") (str "hi")] }],
        analyzed := [] },
    signer := { material := str "sig" },
    request :=
      { postRequest with
        RequestId := str "uuid-0",
        Timeout := 10 * Second,
        PlatformPubKey := { Value := str "MIIBIjAN", CertType := str "RSA2048" },
        Headers := [(str "x-yop-request-id", str "uuid-0"), (str "x-yop-appkey", str "app"),
                    (str "user-agent", str "go/4.3.0/linux/go1.21.0"),
                    (str "Authorization", str "YOP-RSA2048-SHA256 sig")] },
    httpResp := { StatusCode := 200, Header := [], Body := .ok (str "ok") } }

/-- An analyzer that rejects a response whose body is empty. -/
def rejectEmpty : Analyzer :=
  fun context httpResp =>
    { ctx := context, httpResp := httpResp,
      err := if context.YopResponse.Content = [] then some (str "empty body") else none }

/-- The sample environment with a chain that accepts the answer `200 ok`. -/
def acceptingEnv : Env :=
  { sampleEnv with ANALYZER_CHAIN := [passAnalyzer, rejectEmpty] }

/-- The sample exchange with an empty response body. -/
def emptyExchange : Exchange :=
  { uploadExchange with httpResp := { StatusCode := 200, Header := [], Body := .ok [] } }

/-- The HTTP request built for `postRequest` after context assembly, in
`sampleEnv`: the computed content type and the three standard headers. -/
def standardHttpRequest : HttpRequest :=
  { ctx := { timeout := 10 * Second, cancelled := true },
    Method := str "POST", URL := str "https://h/p",
    Header := [(str "Content-Type", [str "application/x-www-form-urlencoded"]),
               (str "X-Yop-Request-Id", [str "uuid-0"]),
               (str "X-Yop-Appkey", [str "app"]),
               (str "User-Agent", [str "go/4.3.0/linux/go1.21.0"])],
    Body := Body.bytes [] }

/-- The request `postJson` with the byte `0x7f` at the end of its path. -/
def postJsonControlByte : YopRequest :=
  { postJson with ApiUri := str "/p" ++ [127] }

/-- The sample environment with a chain of two analyzers whose first one
rejects. -/
def rejectingEnv : Env :=
  { sampleEnv with ANALYZER_CHAIN := [failAnalyzer (str "rejected"), passAnalyzer] }

/-- A POST request with the two parameters `a=1` and `b=2`. -/
def postTwoParams : YopRequest :=
  { postRequest with Params := [(str "a", [str "1"]), (str "b", [str "2"])] }

/-- A schedule in which the writer goroutine writes both fields and the file
while the caller is inside `Client.Do`. -/
def writerFirst : List Turn :=
  [.caller, .caller, .caller, .writeField none, .writeField none, .copyFile none,
   .caller, .caller, .caller, .caller, .caller, .caller]

/-- A schedule in which the first `WriteField` of the writer goroutine returns
while the caller is inside `Client.Do`, and the second one returns without
error between the call of the first analyzer (line 158) and the test of `err`
(line 159). -/
def writeBetween : List Turn :=
  [.caller, .caller, .caller, .writeField none, .caller, .caller, .caller, .caller,
   .caller, .writeField none, .caller,
   .caller, .caller, .caller]

/-- A schedule in which the second `WriteField` of the writer goroutine fails on
the closed pipe between the call of the first analyzer and the test of `err`. -/
def closedBetween : List Turn :=
  [.caller, .caller, .caller, .writeField none, .caller, .caller, .caller, .caller,
   .caller, .writeField (some (str "io: read/write on closed pipe")), .caller]

/-! ## Lemmas -/

/-! ### strings and paths -/

theorem str_filenameEq : str "filename=" = [102, 105, 108, 101, 110, 97, 109, 101, 61] := by rfl

theorem str_attachment : str "attachment; filename=" =
    [97, 116, 116, 97, 99, 104, 109, 101, 110, 116, 59, 32,
     102, 105, 108, 101, 110, 97, 109, 101, 61] := by rfl

theorem Index_attachment (rest : GoString) :
    strings.Index (str "attachment; filename=" ++ rest) (str "filename=") = 12 := by
  rw [str_attachment, str_filenameEq]
  simp [strings.Index, strings.startsWith]

theorem trim_quoted (N : GoString) (hne : N ≠ []) (hdq : (34 : Byte) ∉ N) (hsq : (39 : Byte) ∉ N) :
    strings.Trim (34 :: N ++ [34]) [34, 39] = N := by
  have hmem : ∀ c ∈ N, decide (c ∈ [(34 : Byte), 39]) = false := by
    intro c hc
    simp only [decide_eq_false_iff_not, List.mem_cons, List.mem_singleton, List.not_mem_nil,
      or_false, not_or]
    exact ⟨fun h => hdq (h ▸ hc), fun h => hsq (h ▸ hc)⟩
  unfold strings.Trim
  have h1 : (34 :: N ++ [34] : GoString) = (34 :: N) ++ [34] := by simp
  rw [h1, List.rdropWhile_concat]
  have h2 : decide ((34 : Byte) ∈ [(34 : Byte), 39]) = true := by decide
  rw [if_pos h2]
  have h3 : List.rdropWhile (fun c => decide (c ∈ [(34 : Byte), 39])) (34 :: N) = 34 :: N := by
    rw [List.rdropWhile_eq_self_iff]
    intro hl
    have : (34 :: N).getLast hl = N.getLast hne := List.getLast_cons hne
    rw [this, hmem _ (List.getLast_mem hne)]
    simp
  rw [h3, List.dropWhile_cons, if_pos h2]
  cases N with
  | nil => exact absurd rfl hne
  | cons c t =>
    rw [List.dropWhile_cons, hmem c (List.mem_cons_self _ _)]
    simp

theorem Base_slashes (p : GoString) (h : ∀ c ∈ p, c = 47) :
    filepath.Base p = str "." ∨ filepath.Base p = str "/" := by
  unfold filepath.Base
  by_cases hp : p = []
  · left; simp [hp]
  · right
    have : List.rdropWhile (fun c => decide (c = (47 : Byte))) p = [] := by
      rw [List.rdropWhile_eq_nil_iff]
      intro x hx; simp [h x hx]
    simp only [if_neg hp, this]
    rfl

/-! ### maps -/

theorem mapGet_mapSet_same {β : Type} (m : List (GoString × β)) (k : GoString) (v : β) :
    mapGet (mapSet m k v) k = some v := by
  induction m with
  | nil => simp [mapSet, mapGet]
  | cons kv t ih =>
    obtain ⟨k1, v1⟩ := kv
    by_cases h : k1 = k
    · simp [mapSet, mapGet, h]
    · simp [mapSet, mapGet, h, ih]

theorem mapGet_mapSet_other {β : Type} (m : List (GoString × β)) (k k2 : GoString) (v : β)
    (hne : k ≠ k2) : mapGet (mapSet m k v) k2 = mapGet m k2 := by
  induction m with
  | nil => simp [mapSet, mapGet, hne]
  | cons kv t ih =>
    obtain ⟨k1, v1⟩ := kv
    by_cases h : k1 = k
    · subst h; simp [mapSet, mapGet, hne]
    · by_cases h2 : k1 = k2
      · subst h2; simp [mapSet, mapGet, h]
      · simp [mapSet, mapGet, h, h2, ih]

/-! ### headers -/

theorem setHeaders_get (headers : List (GoString × GoString)) (h v : GoString)
    (huniq : ∀ kv ∈ headers,
      http.CanonicalMIMEHeaderKey kv.1 = http.CanonicalMIMEHeaderKey h → kv.2 = v) :
    ∀ H : http.Header,
      (mapGet H (http.CanonicalMIMEHeaderKey h) = some [v] ∨ (h, v) ∈ headers) →
      mapGet (setHeaders H headers) (http.CanonicalMIMEHeaderKey h) = some [v] := by
  induction headers with
  | nil =>
    intro H hH
    rcases hH with hH | hH
    · simpa [setHeaders] using hH
    · simp at hH
  | cons kv t ih =>
    intro H hH
    have ih1 := ih (fun kv1 hkv1 => huniq kv1 (List.mem_cons_of_mem _ hkv1))
    have hstep : setHeaders H (kv :: t) = setHeaders (http.Header.Set H kv.1 kv.2) t := by
      simp [setHeaders]
    rw [hstep]
    apply ih1
    by_cases hc : http.CanonicalMIMEHeaderKey kv.1 = http.CanonicalMIMEHeaderKey h
    · left
      have hv := huniq kv (List.mem_cons_self _ _) hc
      rw [http.Header.Set, hc, hv, mapGet_mapSet_same]
    · rcases hH with hH | hH
      · left
        rw [http.Header.Set, mapGet_mapSet_other _ _ _ _ hc]
        exact hH
      · right
        rcases List.mem_cons.mp hH with heq | hmem
        · exact absurd (by rw [← heq]) hc
        · exact hmem

theorem buildHttpRequest_header (env : Env) (yopRequest : YopRequest) (r : HttpRequest)
    (hb : buildHttpRequest env yopRequest = .returned (.ok r)) :
    ∃ H : http.Header, r.Header = setHeaders H yopRequest.Headers := by
  unfold buildHttpRequest at hb
  cases hc : checkForMultiPart yopRequest with
  | fatal msg => simp [hc] at hb
  | returned x =>
    cases x with
    | error e => simp [hc] at hb
    | ok isMultiPart =>
      simp only [hc] at hb
      split at hb
      · simp at hb
      · rename_i result hres
        simp only [Outcome.returned.injEq, Except.ok.injEq] at hb
        exact ⟨result.Header, by rw [← hb]⟩

/-! ### the analyzer chain -/

theorem runAnalyzerChain_append (pre : List Analyzer) :
    ∀ (i : Nat) (w : World) (c : RespHandleContext) (h : HttpResponse)
      (w1 : World) (c1 : RespHandleContext) (h1 : HttpResponse),
      runAnalyzerChain pre i w c h = (w1, c1, h1, none) →
      ∀ rest, runAnalyzerChain (pre ++ rest) i w c h
        = runAnalyzerChain rest (i + pre.length) w1 c1 h1 := by
  induction pre with
  | nil =>
    intro i w c h w1 c1 h1 hrun rest
    simp only [runAnalyzerChain, Prod.mk.injEq] at hrun
    obtain ⟨rfl, rfl, rfl, _⟩ := hrun
    simp
  | cons a t ih =>
    intro i w c h w1 c1 h1 hrun rest
    simp only [runAnalyzerChain] at hrun
    rw [List.cons_append, runAnalyzerChain]
    cases herr : (a c h).err with
    | some e => simp [herr] at hrun
    | none =>
      simp only [herr] at hrun ⊢
      rw [ih _ _ _ _ _ _ _ hrun rest]
      simp [Nat.add_assoc, Nat.add_comm 1]

theorem runAnalyzerChain_ok_world (l : List Analyzer) :
    ∀ (i : Nat) (w : World) (c : RespHandleContext) (h : HttpResponse)
      (w1 : World) (c1 : RespHandleContext) (h1 : HttpResponse),
      runAnalyzerChain l i w c h = (w1, c1, h1, none) →
      w1 = { w with
        analyzed := w.analyzed ++ (List.range l.length).map (fun j => (i + j, none)) } := by
  induction l with
  | nil =>
    intro i w c h w1 c1 h1 hrun
    simp only [runAnalyzerChain, Prod.mk.injEq] at hrun
    obtain ⟨rfl, _⟩ := hrun
    simp
  | cons a t ih =>
    intro i w c h w1 c1 h1 hrun
    simp only [runAnalyzerChain] at hrun
    cases herr : (a c h).err with
    | some e => simp [herr] at hrun
    | none =>
      simp only [herr] at hrun
      rw [ih _ _ _ _ _ _ _ hrun]
      simp [List.range_succ_eq_map, List.map_map, Function.comp_def, Nat.add_assoc,
        Nat.add_comm 1]

theorem runAnalyzerChain_sound (l : List Analyzer) :
    ∀ (i : Nat) (w : World) (c : RespHandleContext) (h : HttpResponse),
      (runAnalyzerChain l i w c h).2.2.2 = none →
      (runAnalyzerChain l i w c h).1.analyzed
        = w.analyzed ++ (List.range l.length).map (fun j => (i + j, none)) := by
  intro i w c h hnone
  have := runAnalyzerChain_ok_world l i w c h (runAnalyzerChain l i w c h).1
    (runAnalyzerChain l i w c h).2.1 (runAnalyzerChain l i w c h).2.2.1
    (by rw [← hnone])
  rw [this]

theorem handleResponse_fails (env : Env) (x : Exchange) (body : List Byte)
    (pre post : List Analyzer) (a : Analyzer) (e : Error)
    (w1 : World) (c1 : RespHandleContext) (resp1 : HttpResponse)
    (hbody : x.httpResp.Body = .ok body)
    (hchain : env.ANALYZER_CHAIN = pre ++ a :: post)
    (hpre : runAnalyzerChain pre 0 x.world
      (respHandleContext x.signer x.request x.httpResp body) x.httpResp = (w1, c1, resp1, none))
    (hk : (a c1 resp1).err = some e) :
    handleResponse env x.world x.signer x.request x.httpResp =
      { world := { x.world with
          analyzed := x.world.analyzed ++ (List.range pre.length).map (fun j => (j, none))
            ++ [(pre.length, some e)] },
        request := x.request, response := none, err := some e } := by
  have hw := runAnalyzerChain_ok_world pre 0 _ _ _ _ _ _ hpre
  unfold handleResponse
  rw [hbody]
  simp only
  rw [hchain, runAnalyzerChain_append pre 0 _ _ _ _ _ _ hpre]
  simp only [runAnalyzerChain, hk, Nat.zero_add]
  rw [hw]
  simp

theorem handleResponse_response (env : Env) (w : World) (signer : RsaSigner)
    (request : YopRequest) (httpResp : HttpResponse) (y : YopResponse)
    (h : (handleResponse env w signer request httpResp).response = some y) :
    (handleResponse env w signer request httpResp).err = none ∧
    (handleResponse env w signer request httpResp).world.analyzed
      = w.analyzed ++ (List.range env.ANALYZER_CHAIN.length).map (fun j => (j, none)) := by
  unfold handleResponse at h ⊢
  cases hb : httpResp.Body with
  | error err => simp [hb] at h
  | ok body =>
    simp only [hb] at h ⊢
    have hs := runAnalyzerChain_sound env.ANALYZER_CHAIN 0 w
      (respHandleContext signer request httpResp body) httpResp
    generalize runAnalyzerChain env.ANALYZER_CHAIN 0 w
      (respHandleContext signer request httpResp body) httpResp = res at h hs ⊢
    obtain ⟨w1, c1, h1, err⟩ := res
    cases err with
    | some e => simp at h
    | none => simpa using hs

theorem sendRequest_analyzed (env : Env) (w : World) (request : YopRequest) (x : Exchange)
    (h : sendRequest env w request = .returned (.ok x)) : x.world.analyzed = w.analyzed := by
  unfold sendRequest at h
  simp only at h
  split at h
  · simp at h
  · split at h
    · simp at h
    · simp at h
    · split at h
      · simp at h
      · simp only [Outcome.returned.injEq, Except.ok.injEq] at h
        rw [← h]
        simp [initRequest]

theorem sendUpload_analyzed (env : Env) (w : World) (request : YopRequest)
    (fieldName filename : GoString) (byte : List Byte) (x : Exchange)
    (h : sendUpload env w request fieldName filename byte = .ok x) :
    x.world.analyzed = w.analyzed := by
  unfold sendUpload at h
  simp only at h
  split at h
  · simp at h
  · split at h
    · simp at h
    · split at h
      · simp at h
      · simp only [Except.ok.injEq] at h
        rw [← h]
        simp [initRequest]

theorem sendRequest_early (env : Env) (w : World) (request : YopRequest) (early : CallResult)
    (hs : sendRequest env w request = .returned (.error early)) : early.response = none := by
  unfold sendRequest at hs
  simp only at hs
  split at hs
  · simp only [Outcome.returned.injEq, Except.error.injEq] at hs
    rw [← hs]
  · split at hs
    · simp at hs
    · simp only [Outcome.returned.injEq, Except.error.injEq] at hs
      rw [← hs]
    · split at hs
      · simp only [Outcome.returned.injEq, Except.error.injEq] at hs
        rw [← hs]
      · simp at hs

theorem sendUpload_early (env : Env) (w : World) (request : YopRequest)
    (fieldName filename : GoString) (byte : List Byte) (early : CallResult)
    (hs : sendUpload env w request fieldName filename byte = .error early) :
    early.response = none := by
  unfold sendUpload at hs
  simp only at hs
  split at hs
  · simp only [Except.error.injEq] at hs
    rw [← hs]
  · split at hs
    · simp only [Except.error.injEq] at hs
      rw [← hs]
    · split at hs
      · simp only [Except.error.injEq] at hs
        rw [← hs]
      · simp at hs

theorem Request_response (env : Env) (w : World) (request : YopRequest) (res : CallResult)
    (y : YopResponse) (hreq : Request env w request = .returned res)
    (hy : res.response = some y) :
    res.err = none ∧
    res.world.analyzed
      = w.analyzed ++ (List.range env.ANALYZER_CHAIN.length).map (fun j => (j, none)) := by
  unfold Request at hreq
  cases hs : sendRequest env w request with
  | fatal msg => simp [hs] at hreq
  | returned r =>
    cases r with
    | error early =>
      simp only [hs, Outcome.returned.injEq] at hreq
      subst hreq
      rw [sendRequest_early env w request early hs] at hy
      simp at hy
    | ok x1 =>
      simp only [hs, Outcome.returned.injEq] at hreq
      subst hreq
      have := handleResponse_response env _ _ _ _ y hy
      rw [sendRequest_analyzed env w request x1 hs] at this
      exact this

theorem MultiPartUploadFileByBytes_response (env : Env) (w : World) (request : YopRequest)
    (fieldName filename : GoString) (byte : List Byte) (y : YopResponse)
    (hy : (MultiPartUploadFileByBytes env w request fieldName filename byte).response = some y) :
    (MultiPartUploadFileByBytes env w request fieldName filename byte).err = none ∧
    (MultiPartUploadFileByBytes env w request fieldName filename byte).world.analyzed
      = w.analyzed ++ (List.range env.ANALYZER_CHAIN.length).map (fun j => (j, none)) := by
  unfold MultiPartUploadFileByBytes at hy ⊢
  cases hs : sendUpload env w request fieldName filename byte with
  | error early =>
    simp only [hs] at hy
    rw [sendUpload_early env w request fieldName filename byte early hs] at hy
    simp at hy
  | ok x1 =>
    simp only [hs] at hy ⊢
    have := handleResponse_response env _ _ _ _ y hy
    rw [sendUpload_analyzed env w request fieldName filename byte x1 hs] at this
    exact this

/-! ### the multipart check and the bodies of the builder -/

theorem checkForMultiPart_fatal (yopRequest : YopRequest)
    (hfiles : yopRequest.Files ≠ []) (hmethod : yopRequest.HttpMethod ≠ str "POST") :
    checkForMultiPart yopRequest
      = .fatal (str "ContentType:multipart/form-data only support Post Request") := by
  have hlen : 0 < yopRequest.Files.length := List.length_pos.mpr hfiles
  have hne : ¬ POST_HTTP_METHOD = yopRequest.HttpMethod := fun h => hmethod h.symm
  simp [checkForMultiPart, hlen, hne]

theorem buildHttpRequest_fatal (env : Env) (yopRequest : YopRequest)
    (hfiles : yopRequest.Files ≠ []) (hmethod : yopRequest.HttpMethod ≠ str "POST") :
    buildHttpRequest env yopRequest
      = .fatal (str "ContentType:multipart/form-data only support Post Request") := by
  simp [buildHttpRequest, checkForMultiPart_fatal yopRequest hfiles hmethod]

theorem writeParamFields_mem (params : List (GoString × List GoString))
    (k : GoString) (vs : List GoString) (v : GoString)
    (hk : (k, vs) ∈ params) (hv : v ∈ vs) :
    Part.field k (url.QueryEscape v) ∈ writeParamFields params := by
  simp only [writeParamFields, List.mem_flatMap, List.mem_map]
  exact ⟨(k, vs), hk, v, hv, rfl⟩

theorem writeParamFields_length (params : List (GoString × List GoString)) :
    (writeParamFields params).length = (params.map (fun kv => kv.2.length)).sum := by
  induction params with
  | nil => rfl
  | cons kv t ih =>
    simp only [writeParamFields, List.flatMap_cons, List.length_append, List.length_map,
      List.map_cons, List.sum_cons] at ih ⊢
    rw [ih]

theorem mapSet_of_not_mem {β : Type} (m : List (GoString × β)) (k : GoString) (v : β)
    (h : k ∉ m.map Prod.fst) : mapSet m k v = m ++ [(k, v)] := by
  induction m with
  | nil => rfl
  | cons kv t ih =>
    obtain ⟨k1, v1⟩ := kv
    simp only [List.map_cons, List.mem_cons, not_or] at h
    have hne : ¬ k1 = k := fun e => h.1 e.symm
    simp [mapSet, hne, ih h.2]

theorem setFormValues_single (params : List (GoString × List GoString)) :
    ∀ (formValues : url.Values),
      (formValues.map Prod.fst ++ params.map Prod.fst).Nodup →
      (∀ kv ∈ params, ∃ v, kv.2 = [v]) →
      setFormValues formValues params
        = formValues ++ params.map (fun kv => (kv.1, kv.2.map url.QueryEscape)) := by
  induction params with
  | nil => intro fv _ _; simp [setFormValues]
  | cons kv t ih =>
    intro fv hnodup hsingle
    obtain ⟨v, hv⟩ := hsingle kv (List.mem_cons_self _ _)
    obtain ⟨k, vs⟩ := kv
    simp only at hv
    subst hv
    have hk : k ∉ fv.map Prod.fst := by
      intro hmem
      have := List.nodup_append.mp hnodup
      exact this.2.2 hmem (by simp)
    have hstep : setFormValues fv ((k, [v]) :: t)
        = setFormValues (fv ++ [(k, [url.QueryEscape v])]) t := by
      simp [setFormValues, url.Values.Set, mapSet_of_not_mem fv k _ hk]
    rw [hstep, ih]
    · simp
    · have : (fv.map Prod.fst ++ ((k, [v]) :: t).map Prod.fst)
          = ((fv ++ [(k, [url.QueryEscape v])]).map Prod.fst ++ t.map Prod.fst) := by simp
      rw [← this]; exact hnodup
    · intro kv1 hkv1
      exact hsingle kv1 (List.mem_cons_of_mem _ hkv1)

theorem buildHttpRequest_no_payload_post (env : Env) (yopRequest : YopRequest)
    (hfiles : yopRequest.Files = [])
    (hcontent : yopRequest.Content = [])
    (hpost : yopRequest.HttpMethod = str "POST")
    (hparse : env.urlParseError (yopRequest.ServerRoot ++ yopRequest.ApiUri) = none) :
    getContentType env yopRequest = env.YOP_HTTP_CONTENT_TYPE_FORM ∧
    buildHttpRequest env yopRequest = .returned (.ok
      { ctx := { timeout := if yopRequest.Timeout = 0 then 10 * Second else yopRequest.Timeout,
                 cancelled := true },
        Method := str "POST",
        URL := yopRequest.ServerRoot ++ yopRequest.ApiUri,
        Header := setHeaders
          (http.Header.Set [] env.CONTENT_TYPE env.YOP_HTTP_CONTENT_TYPE_FORM) yopRequest.Headers,
        Body := Body.bytes (url.Values.Encode (setFormValues [] yopRequest.Params)) }) := by
  have hct : getContentType env yopRequest = env.YOP_HTTP_CONTENT_TYPE_FORM := by
    simp [getContentType, hcontent]
  refine ⟨hct, ?_⟩
  have hcheck : checkForMultiPart yopRequest = .returned (.ok false) := by
    simp [checkForMultiPart, hfiles]
  have hvalid : http.validMethod (str "POST") = true := by rfl
  have hne : str "POST" ≠ ([] : GoString) := by decide
  unfold buildHttpRequest
  simp only [hcheck]
  simp [http.NewRequestWithContext, hpost, POST_HTTP_METHOD, hcontent, hvalid, hne, hparse, hct]

theorem buildHttpRequest_no_payload_other (env : Env) (yopRequest : YopRequest)
    (target : GoString)
    (hfiles : yopRequest.Files = [])
    (hcontent : yopRequest.Content = [])
    (hmethod : yopRequest.HttpMethod ≠ str "POST")
    (hvalid : http.validMethod yopRequest.HttpMethod = true)
    (htarget : target =
      if env.EncodeParameters yopRequest.Params false = [] then
        yopRequest.ServerRoot ++ yopRequest.ApiUri
      else
        yopRequest.ServerRoot ++ yopRequest.ApiUri ++ str "?"
          ++ env.EncodeParameters yopRequest.Params false)
    (hparse : env.urlParseError target = none) :
    getContentType env yopRequest = env.YOP_HTTP_CONTENT_TYPE_FORM ∧
    buildHttpRequest env yopRequest = .returned (.ok
      { ctx := { timeout := if yopRequest.Timeout = 0 then 10 * Second else yopRequest.Timeout,
                 cancelled := true },
        Method := yopRequest.HttpMethod,
        URL := target,
        Header := setHeaders
          (http.Header.Set [] env.CONTENT_TYPE env.YOP_HTTP_CONTENT_TYPE_FORM) yopRequest.Headers,
        Body := Body.none }) := by
  have hct : getContentType env yopRequest = env.YOP_HTTP_CONTENT_TYPE_FORM := by
    simp [getContentType, hcontent]
  refine ⟨hct, ?_⟩
  have hcheck : checkForMultiPart yopRequest = .returned (.ok false) := by
    simp [checkForMultiPart, hfiles]
  have hne : yopRequest.HttpMethod ≠ [] := by
    intro h
    rw [h] at hvalid
    simp [http.validMethod] at hvalid
  have hnp : ¬ POST_HTTP_METHOD = yopRequest.HttpMethod := fun h => hmethod h.symm
  unfold buildHttpRequest
  simp only [hcheck]
  by_cases henc : env.EncodeParameters yopRequest.Params false = []
  · rw [if_pos henc] at htarget
    subst htarget
    simp [http.NewRequestWithContext, hnp, hcontent, henc, hvalid, hne, hparse, hct]
  · rw [if_neg henc] at htarget
    subst htarget
    have hpos : 0 < (env.EncodeParameters yopRequest.Params false).length :=
      List.length_pos.mpr henc
    simp only [List.append_assoc] at hparse
    simp [http.NewRequestWithContext, hnp, hcontent, hpos, hvalid, hne, hparse, hct]

theorem buildHttpRequest_post_payload_rejected (env : Env) (yopRequest : YopRequest)
    (target : GoString) (e : Error)
    (hfiles : yopRequest.Files = [])
    (hpost : yopRequest.HttpMethod = str "POST")
    (hcontent : yopRequest.Content ≠ [])
    (htarget : target =
      if env.EncodeParameters yopRequest.Params false = [] then
        yopRequest.ServerRoot ++ yopRequest.ApiUri
      else
        yopRequest.ServerRoot ++ yopRequest.ApiUri ++ str "?"
          ++ env.EncodeParameters yopRequest.Params false)
    (hparse : env.urlParseError target = some e) :
    buildHttpRequest env yopRequest = .returned (.error e) := by
  have hlen : 0 < yopRequest.Content.length := List.length_pos.mpr hcontent
  have hcheck : checkForMultiPart yopRequest = .returned (.ok false) := by
    simp [checkForMultiPart, hfiles]
  have hvalid : http.validMethod (str "POST") = true := by rfl
  have hne : str "POST" ≠ ([] : GoString) := by decide
  unfold buildHttpRequest
  simp only [hcheck]
  by_cases henc : env.EncodeParameters yopRequest.Params false = []
  · rw [if_pos henc] at htarget
    subst htarget
    simp [http.NewRequestWithContext, hpost, POST_HTTP_METHOD, hlen, henc, hvalid, hne, hparse]
  · rw [if_neg henc] at htarget
    subst htarget
    have hpos : 0 < (env.EncodeParameters yopRequest.Params false).length :=
      List.length_pos.mpr henc
    simp only [List.append_assoc] at hparse
    simp [http.NewRequestWithContext, hpost, POST_HTTP_METHOD, hlen, hpos, hvalid, hne, hparse]

theorem deriveFilename_of_base (contentType urlPath : GoString)
    (hdot : filepath.Base urlPath ≠ str ".") (hslash : filepath.Base urlPath ≠ str "/") :
    deriveFilename [] [] contentType urlPath = filepath.Base urlPath := by
  unfold deriveFilename
  simp only [ne_eq, not_true_eq_false, if_false, if_true, hdot, hslash, or_self]

/-! ### escaping and the form round trip -/

set_option maxRecDepth 100000 in
theorem escapeByte_all_clean : ∀ c : Byte,
    (url.escapeByte c).all (fun d => d != 38 && d != 59 && d != 61) = true := by
  decide

theorem escapeByte_clean (c d : Byte) (hd : d ∈ url.escapeByte c) : d ≠ 38 ∧ d ≠ 59 ∧ d ≠ 61 := by
  have h := List.all_eq_true.mp (escapeByte_all_clean c) d hd
  simp only [Bool.and_eq_true, bne_iff_ne, ne_eq] at h
  exact ⟨h.1.1, h.1.2, h.2⟩

set_option maxRecDepth 100000 in
theorem unreserved_plain : ∀ c : Byte, url.shouldEscape c = false → c ≠ 37 ∧ c ≠ 43 := by
  decide

set_option maxRecDepth 100000 in
theorem upperhex_ishex : ∀ c : Byte,
    url.ishex (url.upperhex (c.val / 16)) = true ∧ url.ishex (url.upperhex (c.val % 16)) = true := by
  decide

set_option maxRecDepth 100000 in
theorem unhex_upperhex : ∀ c : Byte,
    (Fin.ofNat (url.unhex (url.upperhex (c.val / 16)) * 16
      + url.unhex (url.upperhex (c.val % 16))) : Byte) = c := by
  decide

theorem QueryEscape_clean (s : GoString) : ∀ d ∈ url.QueryEscape s, d ≠ 38 ∧ d ≠ 59 ∧ d ≠ 61 := by
  intro d hd
  simp only [url.QueryEscape, List.mem_flatMap] at hd
  obtain ⟨c, _, hc⟩ := hd
  exact escapeByte_clean c d hc

theorem QueryUnescape_plain (c : Byte) (rest r : GoString) (h37 : c ≠ 37)
    (h : url.QueryUnescape rest = .ok r) :
    url.QueryUnescape (c :: rest) = .ok ((if c = 43 then 32 else c) :: r) := by
  conv_lhs => unfold url.QueryUnescape
  simp [h37, h]

theorem QueryUnescape_percent (a b : Byte) (rest r : GoString)
    (ha : url.ishex a = true) (hb : url.ishex b = true)
    (h : url.QueryUnescape rest = .ok r) :
    url.QueryUnescape (37 :: a :: b :: rest)
      = .ok (Fin.ofNat (url.unhex a * 16 + url.unhex b) :: r) := by
  conv_lhs => unfold url.QueryUnescape
  simp [ha, hb, h]

theorem QueryUnescape_escapeByte (c : Byte) (rest r : GoString)
    (h : url.QueryUnescape rest = .ok r) :
    url.QueryUnescape (url.escapeByte c ++ rest) = .ok (c :: r) := by
  unfold url.escapeByte
  by_cases hs : url.shouldEscape c = true
  · by_cases h32 : c = 32
    · subst h32
      simp only [hs, if_true, List.cons_append, List.nil_append]
      rw [QueryUnescape_plain 43 rest r (by decide) h]
      rfl
    · simp only [hs, h32, if_true, if_false, List.cons_append, List.nil_append]
      have hh := upperhex_ishex c
      rw [QueryUnescape_percent _ _ rest r hh.1 hh.2 h, unhex_upperhex c]
  · have hs1 : url.shouldEscape c = false := by simpa using hs
    have hp := unreserved_plain c hs1
    simp only [hs1, Bool.false_eq_true, if_false, List.cons_append, List.nil_append]
    rw [QueryUnescape_plain c rest r hp.1 h, if_neg hp.2]

theorem QueryUnescape_QueryEscape (s : GoString) :
    url.QueryUnescape (url.QueryEscape s) = .ok s := by
  induction s with
  | nil => rfl
  | cons c t ih =>
    have : url.QueryEscape (c :: t) = url.escapeByte c ++ url.QueryEscape t := by
      simp [url.QueryEscape]
    rw [this]
    exact QueryUnescape_escapeByte c _ t ih

theorem cut_of_not_mem (sep : Byte) (a b : GoString) (h : sep ∉ a) :
    url.cut sep (a ++ sep :: b) = (a, b, true) := by
  induction a with
  | nil => simp [url.cut]
  | cons c t ih =>
    simp only [List.mem_cons, not_or] at h
    have hne : ¬ c = sep := fun e => h.1 e.symm
    simp [url.cut, hne, ih h.2]

theorem valuesOf_of_not_mem (m : url.Values) (k : GoString) (h : k ∉ m.map Prod.fst) :
    valuesOf m k = [] := by
  induction m with
  | nil => rfl
  | cons kv t ih =>
    obtain ⟨k1, v1⟩ := kv
    simp only [List.map_cons, List.mem_cons, not_or] at h
    have hne : ¬ k1 = k := fun e => h.1 e.symm
    have := ih h.2
    simp only [valuesOf, mapGet, hne, if_false] at this ⊢
    exact this

theorem parseSegment_entry (m : url.Values) (k e : GoString) (h : k ∉ m.map Prod.fst) :
    url.parseSegment (m, none) (url.QueryEscape k ++ 61 :: url.QueryEscape e)
      = (m ++ [(k, [e])], none) := by
  have h59 : (59 : Byte) ∉ url.QueryEscape k ++ 61 :: url.QueryEscape e := by
    intro hmem
    rcases List.mem_append.mp hmem with h1 | h1
    · exact (QueryEscape_clean k 59 h1).2.1 rfl
    · rcases List.mem_cons.mp h1 with h2 | h2
      · exact absurd h2 (by decide)
      · exact (QueryEscape_clean e 59 h2).2.1 rfl
  have hne : url.QueryEscape k ++ 61 :: url.QueryEscape e ≠ [] := by simp
  have h61 : (61 : Byte) ∉ url.QueryEscape k := fun hmem => (QueryEscape_clean k 61 hmem).2.2 rfl
  unfold url.parseSegment
  simp only [h59, decide_False, Bool.false_eq_true, if_false, hne, cut_of_not_mem 61 _ _ h61,
    QueryUnescape_QueryEscape, url.Values.Add, valuesOf_of_not_mem m k h, List.nil_append,
    mapSet_of_not_mem m k _ h]

theorem parseSegment_entries (val : GoString → GoString) (ks : List GoString) :
    ∀ m : url.Values, (m.map Prod.fst ++ ks).Nodup →
      (ks.map (fun k => url.QueryEscape k ++ 61 :: url.QueryEscape (val k))).foldl
          url.parseSegment (m, none)
        = (m ++ ks.map (fun k => (k, [val k])), none) := by
  induction ks with
  | nil => intro m _; simp
  | cons k t ih =>
    intro m hnodup
    have hk : k ∉ m.map Prod.fst := by
      intro hmem
      exact (List.nodup_append.mp hnodup).2.2 hmem (List.mem_cons_self _ _)
    simp only [List.map_cons, List.foldl_cons]
    rw [parseSegment_entry m k (val k) hk, ih]
    · simp
    · have : ((m ++ [(k, [val k])]).map Prod.fst ++ t) = (m.map Prod.fst ++ k :: t) := by simp
      rw [this]; exact hnodup

theorem ParseQuery_entries (val : GoString → GoString) (ks : List GoString) (hnodup : ks.Nodup) :
    url.ParseQuery ([(38 : Byte)].intercalate
        (ks.map (fun k => url.QueryEscape k ++ 61 :: url.QueryEscape (val k))))
      = (ks.map (fun k => (k, [val k])), none) := by
  unfold url.ParseQuery
  cases ks with
  | nil => rfl
  | cons k t =>
    rw [List.splitOn_intercalate]
    · have := parseSegment_entries val (k :: t) [] (by simpa using hnodup)
      simpa using this
    · intro l hl
      simp only [List.mem_map] at hl
      obtain ⟨k1, _, rfl⟩ := hl
      intro hmem
      rcases List.mem_append.mp hmem with h1 | h1
      · exact (QueryEscape_clean k1 38 h1).1 rfl
      · rcases List.mem_cons.mp h1 with h2 | h2
        · exact absurd h2 (by decide)
        · exact (QueryEscape_clean _ 38 h2).1 rfl
    · simp

theorem valuesOf_map_values (m : url.Values) (f : GoString → GoString) (k : GoString) :
    valuesOf (m.map (fun kv => (kv.1, kv.2.map f))) k = (valuesOf m k).map f := by
  induction m with
  | nil => rfl
  | cons kv t ih =>
    obtain ⟨k1, v1⟩ := kv
    by_cases h : k1 = k
    · simp [valuesOf, mapGet, h]
    · simp only [valuesOf, mapGet, List.map_cons, h, if_false] at ih ⊢
      exact ih

theorem valuesOf_mem (m : url.Values) (k : GoString) (h : k ∈ m.map Prod.fst) :
    (k, valuesOf m k) ∈ m := by
  induction m with
  | nil => simp at h
  | cons kv t ih =>
    obtain ⟨k1, v1⟩ := kv
    by_cases hk : k1 = k
    · subst hk
      simp [valuesOf, mapGet]
    · have ht : k ∈ t.map Prod.fst := by
        rcases List.mem_cons.mp h with h1 | h1
        · exact absurd h1.symm hk
        · exact h1
      have := ih ht
      simp only [valuesOf, mapGet, hk, if_false] at this ⊢
      exact List.mem_cons_of_mem _ this

theorem valuesOf_map_keys (g : GoString → List GoString) (ks : List GoString) (k : GoString) :
    valuesOf (ks.map (fun x => (x, g x))) k = if k ∈ ks then g k else [] := by
  induction ks with
  | nil => rfl
  | cons k1 t ih =>
    by_cases h : k1 = k
    · subst h
      simp [valuesOf, mapGet]
    · have hne : ¬ k = k1 := fun e => h e.symm
      simp only [valuesOf, mapGet, List.map_cons, h, if_false, List.mem_cons, hne, false_or]
        at ih ⊢
      exact ih

theorem flatMap_singletons {α β : Type} (l : List α) (f : α → List β) (g : α → β)
    (h : ∀ x ∈ l, f x = [g x]) : l.flatMap f = l.map g := by
  induction l with
  | nil => rfl
  | cons a t ih =>
    rw [List.flatMap_cons, h a (List.mem_cons_self _ _),
      ih (fun x hx => h x (List.mem_cons_of_mem _ hx))]
    rfl

theorem unescapeAll_escaped (val : GoString → GoString) (ks : List GoString) :
    unescapeAll (ks.map (fun k => (k, [url.QueryEscape (val k)])))
      = .ok (ks.map (fun k => (k, [val k]))) := by
  induction ks with
  | nil => rfl
  | cons k t ih =>
    simp [unescapeAll, unescapeValues, QueryUnescape_QueryEscape, ih]

/-- The round trip of the form body on the code, for a well-formed parameter
map in which every key has exactly one value: decoding the body built for a
POST without raw content gives back the values of every key. -/
theorem form_round_trip_single_valued (params : List (GoString × List GoString))
    (hnodup : (params.map Prod.fst).Nodup)
    (hsingle : ∀ kv ∈ params, ∃ v, kv.2 = [v]) :
    ∃ decoded, decodeForm (url.Values.Encode (setFormValues [] params)) = .ok decoded ∧
      ∀ k, valuesOf decoded k = valuesOf params k := by
  have hF := setFormValues_single params [] (by simpa using hnodup) hsingle
  simp only [List.nil_append] at hF
  let ks := (params.map Prod.fst).insertionSort (fun a b => url.strLE a b = true)
  have hperm : ks.Perm (params.map Prod.fst) := List.perm_insertionSort _ _
  have hks : ks.Nodup := hperm.nodup_iff.mpr hnodup
  let val : GoString → GoString := fun k => (valuesOf params k).headD []
  have hval : ∀ k ∈ ks, valuesOf params k = [val k] := by
    intro k hk
    have hmem := valuesOf_mem params k (hperm.mem_iff.mp hk)
    obtain ⟨v, hv⟩ := hsingle _ hmem
    simp only at hv
    show valuesOf params k = [(valuesOf params k).headD []]
    rw [hv]; rfl
  have henc : url.Values.Encode (setFormValues [] params)
      = [(38 : Byte)].intercalate
          (ks.map (fun k => url.QueryEscape k ++ 61 :: url.QueryEscape (url.QueryEscape (val k)))) := by
    rw [hF]
    unfold url.Values.Encode
    simp only [List.map_map]
    have hkeys : (Prod.fst ∘ fun kv : GoString × List GoString =>
        (kv.1, kv.2.map url.QueryEscape)) = Prod.fst := rfl
    rw [hkeys]
    congr 1
    apply flatMap_singletons
    intro k hk
    rw [valuesOf_map_values, hval k hk]
    rfl
  refine ⟨ks.map (fun k => (k, [val k])), ?_, ?_⟩
  · rw [henc]
    unfold decodeForm
    rw [ParseQuery_entries (fun k => url.QueryEscape (val k)) ks hks]
    exact unescapeAll_escaped val ks
  · intro k
    rw [valuesOf_map_keys (fun k => [val k]) ks k]
    by_cases hk : k ∈ ks
    · rw [if_pos hk, hval k hk]
    · rw [if_neg hk, valuesOf_of_not_mem params k (fun h => hk (hperm.mem_iff.mpr h))]

/-! ## The claims -/

/-- C1: on a GET request that carries a file `checkForMultiPart` does not hand
an error back: the process ends inside `log.Fatal` before the `return`, and so
`buildHttpRequest` and `Request` end there too, in every environment. -/
theorem multipart_nonPost_is_fatal :
    checkForMultiPart getWithFile
      = .fatal (str "ContentType:multipart/form-data only support Post Request") ∧
    (∀ env, buildHttpRequest env getWithFile
      = .fatal (str "ContentType:multipart/form-data only support Post Request")) ∧
    Request sampleEnv world0 getWithFile
      = .fatal (str "ContentType:multipart/form-data only support Post Request") :=
  ⟨rfl, fun _ => rfl, rfl⟩

/-- C2: for the parameter `a` with the values `1` and `2` the multipart loop
writes one form field per value, while the form body that `buildHttpRequest`
builds for the POST without raw content is `a=2`: the value `1` is dropped. -/
theorem form_body_drops_value :
    writeParamFields postTwoValues.Params
      = [Part.field (str "a") (str "1"), Part.field (str "a") (str "2")] ∧
    buildHttpRequest sampleEnv postTwoValues = .returned (.ok
      { ctx := { timeout := 10 * Second, cancelled := true },
        Method := str "POST", URL := str "https://h/p",
        Header := [(str "Content-Type", [str "application/x-www-form-urlencoded"])],
        Body := Body.bytes (str "a=2") }) :=
  ⟨rfl, rfl⟩

/-- C3: decoding the form body built for the parameter `a` with the values `1`
and `2` yields `a` with the single value `2`, not the original mapping; the
same decoder returns the original from the encoding of all values. -/
theorem form_body_round_trip_fails :
    setFormValues [] postTwoValues.Params = [(str "a", [str "2"])] ∧
    decodeForm (url.Values.Encode (setFormValues [] postTwoValues.Params))
      = .ok [(str "a", [str "2"])] ∧
    valuesOf [(str "a", [str "2"])] (str "a") ≠ valuesOf postTwoValues.Params (str "a") ∧
    decodeForm (formUrlEncode postTwoValues.Params) = .ok postTwoValues.Params :=
  ⟨rfl, rfl, by decide, rfl⟩

/-- C4: in `MultiPartUploadFileByUrl`, with a chain whose first analyzer rejects
with `rejected` and a request with two parameters.  When the writer goroutine
is through before the response arrives, the operation returns no response and
`rejected`, and the second analyzer is not invoked.  When the writer's second
`WriteField` returns between line 158 and line 159, its assignment to `err`
replaces `rejected`: if the write succeeded the second analyzer is invoked and
the operation returns the response; if it failed on the closed pipe the
operation returns the error of the pipe. -/
theorem upload_by_url_chain_race :
    ((MultiPartUploadFileByUrl rejectingEnv world0 postTwoParams (str "file") (str "logo.png")
        (str "https://cdn/logo.png") writerFirst).pc
      = .returned none (some (str "rejected")) ∧
     (MultiPartUploadFileByUrl rejectingEnv world0 postTwoParams (str "file") (str "logo.png")
        (str "https://cdn/logo.png") writerFirst).world.analyzed
      = [(0, some (str "rejected"))]) ∧
    ((MultiPartUploadFileByUrl rejectingEnv world0 postTwoParams (str "file") (str "logo.png")
        (str "https://cdn/logo.png") writeBetween).pc
      = .returned (some { Content := str "ok",
                          Metadata := some { YopSign := [], YopRequestId := [] },
                          Other := [] }) none ∧
     (MultiPartUploadFileByUrl rejectingEnv world0 postTwoParams (str "file") (str "logo.png")
        (str "https://cdn/logo.png") writeBetween).world.analyzed
      = [(0, some (str "rejected")), (1, none)]) ∧
    ((MultiPartUploadFileByUrl rejectingEnv world0 postTwoParams (str "file") (str "logo.png")
        (str "https://cdn/logo.png") closedBetween).pc
      = .returned none (some (str "io: read/write on closed pipe")) ∧
     (MultiPartUploadFileByUrl rejectingEnv world0 postTwoParams (str "file") (str "logo.png")
        (str "https://cdn/logo.png") closedBetween).world.analyzed
      = [(0, some (str "rejected"))]) :=
  ⟨⟨rfl, rfl⟩, ⟨rfl, rfl⟩, ⟨rfl, rfl⟩⟩

/-- The chain short circuit in the two operations without a second goroutine:
once an operation has received a response whose body can be read, if the
analyzers before position `k` (the chain being `pre ++ a :: post`) return no
error and the analyzer at `k` returns the error `e`, then `Request` and
`MultiPartUploadFileByBytes` return no response and the error `e`, and the
analyzers invoked are exactly those at positions `0` to `k`, in that order,
none of `post`.  An operation that returns a response has invoked every
analyzer of the chain in order and each returned no error. -/
theorem analyzer_chain_short_circuit (env : Env) (x : Exchange) (body : List Byte)
    (pre post : List Analyzer) (a : Analyzer) (e : Error)
    (w1 : World) (c1 : RespHandleContext) (resp1 : HttpResponse)
    (hbody : x.httpResp.Body = .ok body)
    (hchain : env.ANALYZER_CHAIN = pre ++ a :: post)
    (hpre : runAnalyzerChain pre 0 x.world
      (respHandleContext x.signer x.request x.httpResp body) x.httpResp = (w1, c1, resp1, none))
    (hk : (a c1 resp1).err = some e) :
    (∀ w request, sendRequest env w request = .returned (.ok x) →
      Request env w request = .returned
        { world := { x.world with
            analyzed := x.world.analyzed ++ (List.range pre.length).map (fun j => (j, none))
              ++ [(pre.length, some e)] },
          request := x.request, response := none, err := some e }) ∧
    (∀ w request fieldName filename byte,
      sendUpload env w request fieldName filename byte = .ok x →
      MultiPartUploadFileByBytes env w request fieldName filename byte =
        { world := { x.world with
            analyzed := x.world.analyzed ++ (List.range pre.length).map (fun j => (j, none))
              ++ [(pre.length, some e)] },
          request := x.request, response := none, err := some e }) ∧
    (∀ w request res y, Request env w request = .returned res → res.response = some y →
      res.err = none ∧
      res.world.analyzed
        = w.analyzed ++ (List.range env.ANALYZER_CHAIN.length).map (fun j => (j, none))) ∧
    (∀ w request fieldName filename byte y,
      (MultiPartUploadFileByBytes env w request fieldName filename byte).response = some y →
      (MultiPartUploadFileByBytes env w request fieldName filename byte).err = none ∧
      (MultiPartUploadFileByBytes env w request fieldName filename byte).world.analyzed
        = w.analyzed ++ (List.range env.ANALYZER_CHAIN.length).map (fun j => (j, none))) := by
  have hfail := handleResponse_fails env x body pre post a e w1 c1 resp1 hbody hchain hpre hk
  refine ⟨?_, ?_, ?_, ?_⟩
  · intro w request hs
    simp only [Request, hs, hfail]
  · intro w request fieldName filename byte hs
    simp only [MultiPartUploadFileByBytes, hs, hfail]
  · intro w request res y hreq hy
    exact Request_response env w request res y hreq hy
  · intro w request fieldName filename byte y hy
    exact MultiPartUploadFileByBytes_response env w request fieldName filename byte y hy

/-- The short circuit on concrete chains: in `sampleEnv` the second of three
analyzers rejects, `MultiPartUploadFileByBytes` returns the error and the third
analyzer is not invoked; in `acceptingEnv` both analyzers accept and the
response is returned after both were invoked. -/
theorem analyzer_chain_short_circuit_witness :
    MultiPartUploadFileByBytes sampleEnv world0 postRequest (str "file") (str "a.txt") (str "hi") =
      { world := { uploadExchange.world with
          analyzed := [(0, none), (1, some (str "rejected"))] },
        request := uploadExchange.request, response := none,
        err := some (str "rejected") } ∧
    MultiPartUploadFileByBytes acceptingEnv world0 postRequest (str "file") (str "a.txt")
        (str "hi") =
      { world := { uploadExchange.world with analyzed := [(0, none), (1, none)] },
        request := uploadExchange.request,
        response := some { Content := str "ok",
                           Metadata := some { YopSign := [], YopRequestId := [] },
                           Other := [] },
        err := none } ∧
    (MultiPartUploadFileByBytes acceptingEnv world0 postRequest (str "file") (str "a.txt")
        (str "hi")).world.analyzed
      = world0.analyzed
          ++ (List.range acceptingEnv.ANALYZER_CHAIN.length).map (fun j => (j, none)) :=
  ⟨(analyzer_chain_short_circuit sampleEnv uploadExchange (str "ok")
      [passAnalyzer] [passAnalyzer] (failAnalyzer (str "rejected")) (str "rejected")
      { uploadExchange.world with analyzed := [(0, none)] }
      (respHandleContext uploadExchange.signer uploadExchange.request uploadExchange.httpResp
        (str "ok"))
      uploadExchange.httpResp rfl rfl rfl rfl).2.1 world0 postRequest (str "file") (str "a.txt")
      (str "hi") rfl,
   rfl,
   ((analyzer_chain_short_circuit acceptingEnv emptyExchange []
      [passAnalyzer] [] rejectEmpty (str "empty body")
      { emptyExchange.world with analyzed := [(0, none)] }
      (respHandleContext emptyExchange.signer emptyExchange.request emptyExchange.httpResp [])
      emptyExchange.httpResp rfl rfl rfl rfl).2.2.2 world0 postRequest (str "file")
      (str "a.txt") (str "hi") _ rfl).2⟩

/-- C5, as stated, fails: the header `X-Custom: 1` that the caller set before
the call is not on the HTTP request built after context assembly. -/
theorem caller_header_dropped :
    (str "X-Custom", str "1") ∈ postCustomHeader.Headers ∧
    buildHttpRequest sampleEnv (initRequest sampleEnv world0 postCustomHeader).2
      = .returned (.ok standardHttpRequest) ∧
    http.Header.Get standardHttpRequest.Header (str "X-Custom") ≠ str "1" :=
  ⟨by decide, rfl, by decide⟩

/-- C5, amended: every entry `(h, v)` that the header map of the request holds
when `buildHttpRequest` runs, no other entry having the same canonical name
with another value, is on the HTTP request built, with value `v` (it overrides
the computed `Content-Type`).  After `initRequest` the header map holds the
three standard headers and nothing of what it held before. -/
theorem headers_of_request_win (env : Env) (w : World) (yopRequest : YopRequest)
    (r : HttpRequest) (h v : GoString)
    (hb : buildHttpRequest env yopRequest = .returned (.ok r))
    (hmem : (h, v) ∈ yopRequest.Headers)
    (huniq : ∀ kv ∈ yopRequest.Headers,
      http.CanonicalMIMEHeaderKey kv.1 = http.CanonicalMIMEHeaderKey h → kv.2 = v) :
    http.Header.Get r.Header h = v ∧
    (initRequest env w yopRequest).2.Headers
      = mapSet (mapSet (mapSet [] env.YOP_REQUEST_ID (initRequest env w yopRequest).2.RequestId)
          env.YOP_APPKEY_HEADER_KEY (initRequest env w yopRequest).2.AppId)
          env.USER_AGENT_HEADER_KEY (buildUserAgent env) := by
  constructor
  · obtain ⟨H, hH⟩ := buildHttpRequest_header env yopRequest r hb
    have := setHeaders_get yopRequest.Headers h v huniq H (Or.inr hmem)
    rw [http.Header.Get, hH, this]
  · simp [initRequest, addStandardHeaders]

/-- C5, amended, on a concrete request: the entry `content-type: text/xml` of
the header map replaces the computed form content type. -/
theorem headers_of_request_win_witness :
    http.Header.Get
        ({ ctx := { timeout := 10 * Second, cancelled := true },
           Method := str "POST", URL := str "https://h/p",
           Header := [(str "Content-Type", [str "text/xml"])],
           Body := Body.bytes [] } : HttpRequest).Header (str "content-type") = str "text/xml" ∧
    (initRequest sampleEnv world0 postXmlHeader).2.Headers
      = mapSet (mapSet (mapSet [] sampleEnv.YOP_REQUEST_ID
            (initRequest sampleEnv world0 postXmlHeader).2.RequestId)
          sampleEnv.YOP_APPKEY_HEADER_KEY (initRequest sampleEnv world0 postXmlHeader).2.AppId)
          sampleEnv.USER_AGENT_HEADER_KEY (buildUserAgent sampleEnv) :=
  headers_of_request_win sampleEnv world0 postXmlHeader _ (str "content-type") (str "text/xml")
    rfl (by decide) (by decide)

/-- C6: with no filename from the caller and the header
`Content-Disposition: attachment; filename="N"`, where `N` is not empty and
holds neither a double nor a single quote, the derived filename is `N`,
whatever the content type and the path of the source URL. -/
theorem deriveFilename_from_disposition (N contentType urlPath : GoString)
    (hne : N ≠ []) (hdq : (34 : Byte) ∉ N) (hsq : (39 : Byte) ∉ N) :
    deriveFilename [] (str "attachment; filename=" ++ [34] ++ N ++ [34]) contentType urlPath
      = N := by
  have hshape : str "attachment; filename=" ++ [34] ++ N ++ [34]
      = str "attachment; filename=" ++ (34 :: N ++ [34]) := by simp
  rw [hshape]
  have hidx := Index_attachment (34 :: N ++ [34])
  have hdrop : (str "attachment; filename=" ++ (34 :: N ++ [34])).drop 21 = 34 :: N ++ [34] := by
    rw [str_attachment]; rfl
  have hnil : (str "attachment; filename=" ++ (34 :: N ++ [34])) ≠ [] := by
    rw [str_attachment]; simp
  have htrim := trim_quoted N hne hdq hsq
  unfold deriveFilename
  simp only [strings.Contains, hidx]
  have h21 : ((12 : Int) + 9).toNat = 21 := by decide
  rw [h21, hdrop, htrim]
  simp [hnil, hne]

/-- C6 on `report.pdf`, with a content type and a URL path that would give
other names. -/
theorem deriveFilename_from_disposition_witness :
    str "report.pdf" ≠ [] ∧ (34 : Byte) ∉ str "report.pdf" ∧ (39 : Byte) ∉ str "report.pdf" ∧
    deriveFilename [] (str "attachment; filename=" ++ [34] ++ str "report.pdf" ++ [34])
      (str "image/png") (str "/files/data.bin") = str "report.pdf" :=
  ⟨by decide, by decide, by decide,
   deriveFilename_from_disposition (str "report.pdf") (str "image/png") (str "/files/data.bin")
     (by decide) (by decide) (by decide)⟩

/-- C7, as stated, fails: for the path `/files/`, which ends in `/`, with no
disposition header and content type `image/png`, the derived filename is
`files`. -/
theorem deriveFilename_trailing_slash :
    (str "/files/").getLast? = some 47 ∧
    deriveFilename [] [] (str "image/png") (str "/files/") = str "files" ∧
    str "files" ≠ str "image.png" :=
  ⟨by decide, rfl, by decide⟩

/-- C7, amended: with no filename from the caller, no disposition header and
content type `image/png`, the derived filename is `image.png` whenever the
basename of the path of the source URL (`filepath.Base`, Unix build) is `.` or
`/`, the two values line 77 tests for; among the paths that end in `/` these
include `/`, `//`, `/./` and `/a/./`. -/
theorem deriveFilename_png_of_base (urlPath : GoString)
    (hbase : filepath.Base urlPath = str "." ∨ filepath.Base urlPath = str "/") :
    deriveFilename [] [] (str "image/png") urlPath = str "image.png" := by
  have hne : filepath.Base urlPath ≠ [] := by
    rcases hbase with hb | hb <;> rw [hb] <;> decide
  have c1 : strings.Contains (str "image/png") (str "text/plain") = false := by rfl
  have c2 : strings.Contains (str "image/png") (str "application/pdf") = false := by rfl
  have c3 : strings.Contains (str "image/png") (str "application/zip") = false := by rfl
  have c4 : strings.Contains (str "image/png") (str "image/jpeg") = false := by rfl
  have c5 : strings.Contains (str "image/png") (str "image/gif") = false := by rfl
  have c6 : strings.Contains (str "image/png") (str "image/png") = true := by rfl
  simp only [deriveFilename]
  simp [hne, hbase, c1, c2, c3, c4, c5, c6]

/-- C7, amended, on the path `/a/./`, which ends in `/` and has the basename
`.`. -/
theorem deriveFilename_png_of_base_witness :
    (str "/a/./").getLast? = some 47 ∧
    (filepath.Base (str "/a/./") = str "." ∨ filepath.Base (str "/a/./") = str "/") ∧
    deriveFilename [] [] (str "image/png") (str "/a/./") = str "image.png" :=
  ⟨by decide, Or.inl rfl, deriveFilename_png_of_base (str "/a/./") (Or.inl rfl)⟩

/-- C8: on a request whose `ServerRoot` and `PlatformPubKey.Value` are not
empty, one and two applications of `initRequest` leave `ServerRoot`,
`PlatformPubKey.Value` and `PlatformPubKey.CertType` as they were, and each
application sets `RequestId` to the id the generator hands out for it. -/
theorem initRequest_keeps_preset (env : Env) (w : World) (yopRequest : YopRequest)
    (hroot : yopRequest.ServerRoot ≠ []) (hkey : yopRequest.PlatformPubKey.Value ≠ []) :
    (initRequest env w yopRequest).2.ServerRoot = yopRequest.ServerRoot ∧
    (initRequest env w yopRequest).2.PlatformPubKey.Value = yopRequest.PlatformPubKey.Value ∧
    (initRequest env w yopRequest).2.PlatformPubKey.CertType
      = yopRequest.PlatformPubKey.CertType ∧
    (initRequest env w yopRequest).2.RequestId = env.NewV4 w.uuidCalls ∧
    (initRequest env w yopRequest).1.uuidCalls = w.uuidCalls + 1 ∧
    (initRequest env (initRequest env w yopRequest).1 (initRequest env w yopRequest).2).2.ServerRoot
      = yopRequest.ServerRoot ∧
    (initRequest env (initRequest env w yopRequest).1
        (initRequest env w yopRequest).2).2.PlatformPubKey.Value
      = yopRequest.PlatformPubKey.Value ∧
    (initRequest env (initRequest env w yopRequest).1
        (initRequest env w yopRequest).2).2.PlatformPubKey.CertType
      = yopRequest.PlatformPubKey.CertType ∧
    (initRequest env (initRequest env w yopRequest).1 (initRequest env w yopRequest).2).2.RequestId
      = env.NewV4 (w.uuidCalls + 1) := by
  have h1 : yopRequest.ServerRoot.length ≠ 0 := by
    simpa [List.length_eq_zero] using hroot
  have h2 : yopRequest.PlatformPubKey.Value.length ≠ 0 := by
    simpa [List.length_eq_zero] using hkey
  simp [initRequest, addStandardHeaders, h1, h2, hroot, hkey]

/-- C8 on a request with base URL `https://h` and key `KEY` of type `SM2`: both
survive two rounds, the ids are `uuid-0` and then `uuid-1`. -/
theorem initRequest_keeps_preset_witness :
    presetRequest.ServerRoot ≠ [] ∧ presetRequest.PlatformPubKey.Value ≠ [] ∧
    (initRequest sampleEnv (initRequest sampleEnv world0 presetRequest).1
        (initRequest sampleEnv world0 presetRequest).2).2.PlatformPubKey
      = { Value := str "KEY", CertType := str "SM2" } ∧
    (initRequest sampleEnv world0 presetRequest).2.RequestId = str "uuid-0" ∧
    (initRequest sampleEnv (initRequest sampleEnv world0 presetRequest).1
        (initRequest sampleEnv world0 presetRequest).2).2.RequestId = str "uuid-1" :=
  have h := initRequest_keeps_preset sampleEnv world0 presetRequest (by decide) (by decide)
  ⟨by decide, by decide, rfl, h.2.2.2.1, h.2.2.2.2.2.2.2.2⟩

/-- C9, as stated, fails: the request has no files, method POST and the raw
content `{}`, but its path holds the control byte `0x7f`, `url.Parse` rejects
the target, and `buildHttpRequest` returns that error and no request. -/
theorem post_payload_target_rejected :
    postJsonControlByte.Files = [] ∧
    postJsonControlByte.HttpMethod = str "POST" ∧
    postJsonControlByte.Content ≠ [] ∧
    buildHttpRequest sampleEnv postJsonControlByte
      = .returned (.error (str "net/url: invalid control character in URL")) :=
  ⟨rfl, rfl, by decide, rfl⟩

/-- C9, amended: for a request without files, with method POST and raw content, whose
target `url.Parse` accepts, `buildHttpRequest` returns a request whose
body is the bytes of `Content`, whose URL is `ServerRoot + ApiUri`, followed by
`?` and the encoded parameters when these are not empty, and whose content
type, computed by `getContentType` and set before the headers of the request
are applied, is the JSON content type. -/
theorem buildHttpRequest_post_payload (env : Env) (yopRequest : YopRequest) (target : GoString)
    (hfiles : yopRequest.Files = [])
    (hpost : yopRequest.HttpMethod = str "POST")
    (hcontent : yopRequest.Content ≠ [])
    (htarget : target =
      if env.EncodeParameters yopRequest.Params false = [] then
        yopRequest.ServerRoot ++ yopRequest.ApiUri
      else
        yopRequest.ServerRoot ++ yopRequest.ApiUri ++ str "?"
          ++ env.EncodeParameters yopRequest.Params false)
    (hparse : env.urlParseError target = none) :
    getContentType env yopRequest = env.YOP_HTTP_CONTENT_TYPE_JSON ∧
    buildHttpRequest env yopRequest = .returned (.ok
      { ctx := { timeout := if yopRequest.Timeout = 0 then 10 * Second else yopRequest.Timeout,
                 cancelled := true },
        Method := str "POST",
        URL := target,
        Header := setHeaders
          (http.Header.Set [] env.CONTENT_TYPE env.YOP_HTTP_CONTENT_TYPE_JSON) yopRequest.Headers,
        Body := Body.bytes yopRequest.Content }) := by
  have hlen : 0 < yopRequest.Content.length := List.length_pos.mpr hcontent
  have hct : getContentType env yopRequest = env.YOP_HTTP_CONTENT_TYPE_JSON := by
    simp [getContentType, hpost, hlen]
  refine ⟨hct, ?_⟩
  have hcheck : checkForMultiPart yopRequest = .returned (.ok false) := by
    simp [checkForMultiPart, hfiles]
  have hvalid : http.validMethod (str "POST") = true := by rfl
  have hne : str "POST" ≠ ([] : GoString) := by decide
  unfold buildHttpRequest
  simp only [hcheck]
  by_cases henc : env.EncodeParameters yopRequest.Params false = []
  · rw [if_pos henc] at htarget
    subst htarget
    simp [http.NewRequestWithContext, hpost, POST_HTTP_METHOD, hlen, henc, hvalid, hne, hparse,
      hct]
  · rw [if_neg henc] at htarget
    subst htarget
    have hpos : 0 < (env.EncodeParameters yopRequest.Params false).length :=
      List.length_pos.mpr henc
    simp only [List.append_assoc] at hparse
    simp [http.NewRequestWithContext, hpost, POST_HTTP_METHOD, hlen, hpos, hvalid, hne, hparse,
      hct]

/-- C9 on a request with the content `{}` and the parameter `a=1`. -/
theorem buildHttpRequest_post_payload_witness :
    getContentType sampleEnv postJson = str "application/json" ∧
    buildHttpRequest sampleEnv postJson = .returned (.ok
      { ctx := { timeout := if postJson.Timeout = 0 then 10 * Second else postJson.Timeout,
                 cancelled := true },
        Method := str "POST",
        URL := str "https://h/p?a=1",
        Header := setHeaders
          (http.Header.Set [] sampleEnv.CONTENT_TYPE sampleEnv.YOP_HTTP_CONTENT_TYPE_JSON)
          postJson.Headers,
        Body := Body.bytes postJson.Content }) :=
  buildHttpRequest_post_payload sampleEnv postJson (str "https://h/p?a=1") rfl rfl (by decide)
    rfl rfl

/-- C10: for the POST request without raw content whose parameter `a` has the
values `1` and `2`, the body built is `a=2`, while the form-url-encoding of the
percent-encoded parameters is `a=1&a=2`. -/
theorem form_body_is_not_encoding_of_params :
    buildHttpRequest sampleEnv postTwoValues = .returned (.ok
      { ctx := { timeout := 10 * Second, cancelled := true },
        Method := str "POST", URL := str "https://h/p",
        Header := [(str "Content-Type", [str "application/x-www-form-urlencoded"])],
        Body := Body.bytes (str "a=2") }) ∧
    formUrlEncode postTwoValues.Params = str "a=1&a=2" ∧
    str "a=2" ≠ str "a=1&a=2" :=
  ⟨rfl, rfl, by decide⟩

/-! ### the chain loop of the upload by URL -/

theorem callerStep_returned (env : Env) (s : UrlUpload) (response : Option YopResponse)
    (err : Option Error) (h : s.pc = .returned response err) : callerStep env s = s := by
  unfold callerStep
  rw [h]

theorem callerSteps_returned (env : Env) (n : Nat) :
    ∀ (s : UrlUpload) (response : Option YopResponse) (err : Option Error),
      s.pc = .returned response err →
      (List.replicate n Turn.caller).foldl (urlStep env) s = s := by
  induction n with
  | zero => intro s _ _ _; rfl
  | succ n ih =>
    intro s response err h
    have hstep : urlStep env s Turn.caller = s := callerStep_returned env s response err h
    rw [List.replicate_succ, List.foldl_cons, hstep]
    exact ih s response err h

/-- When only the calling goroutine takes turns from the start of the chain
loop on, the loop of `MultiPartUploadFileByUrl` does what `runAnalyzerChain`
does, and the operation returns the response or the first error of the chain. -/
theorem callerSteps_chain (env : Env) (rest : List Analyzer) :
    ∀ (i : Nat) (s : UrlUpload) (c : RespHandleContext) (resp : HttpResponse),
      env.ANALYZER_CHAIN.drop i = rest →
      s.pc = .analyze i c resp →
      ((List.replicate (2 * rest.length + 1) Turn.caller).foldl (urlStep env) s).world
          = (runAnalyzerChain rest i s.world c resp).1 ∧
      ((List.replicate (2 * rest.length + 1) Turn.caller).foldl (urlStep env) s).pc
          = (match (runAnalyzerChain rest i s.world c resp).2.2.2 with
             | some e => UrlPc.returned none (some e)
             | none =>
               UrlPc.returned (some (runAnalyzerChain rest i s.world c resp).2.1.YopResponse)
                 none) := by
  induction rest with
  | nil =>
    intro i s c resp hdrop hpc
    have hnone : env.ANALYZER_CHAIN[i]? = none := by
      rw [← List.head?_drop, hdrop]; rfl
    simp [urlStep, callerStep, hpc, hnone, runAnalyzerChain]
  | cons a t ih =>
    intro i s c resp hdrop hpc
    have hsome : env.ANALYZER_CHAIN[i]? = some a := by
      rw [← List.head?_drop, hdrop]; rfl
    have hdrop1 : env.ANALYZER_CHAIN.drop (i + 1) = t := by
      rw [← List.tail_drop, hdrop]; rfl
    have hlen : 2 * (a :: t).length + 1 = (2 * t.length + 1) + 1 + 1 := by
      simp only [List.length_cons]; omega
    rw [hlen, List.replicate_succ, List.foldl_cons, List.replicate_succ, List.foldl_cons]
    cases herr : (a c resp).err with
    | some e =>
      have hret : (urlStep env (urlStep env s Turn.caller) Turn.caller).pc
          = .returned none (some e) := by
        simp [urlStep, callerStep, hpc, hsome, herr]
      have hworld : (urlStep env (urlStep env s Turn.caller) Turn.caller).world
          = { s.world with analyzed := s.world.analyzed ++ [(i, some e)] } := by
        simp [urlStep, callerStep, hpc, hsome, herr]
      rw [callerSteps_returned env _ _ none (some e) hret, hret, hworld]
      simp [runAnalyzerChain, herr]
    | none =>
      have hnext : (urlStep env (urlStep env s Turn.caller) Turn.caller).pc
          = .analyze (i + 1) (a c resp).ctx (a c resp).httpResp := by
        simp [urlStep, callerStep, hpc, hsome, herr]
      have hworld : (urlStep env (urlStep env s Turn.caller) Turn.caller).world
          = { s.world with analyzed := s.world.analyzed ++ [(i, none)] } := by
        simp [urlStep, callerStep, hpc, hsome, herr]
      have := ih (i + 1) _ _ _ hdrop1 hnext
      rw [hworld] at this
      simpa [runAnalyzerChain, herr] using this

end Yop
